import Mathlib

/-!
FC_IMU: a shallow embedding of the inertial-sensor driver.

The definitions below follow `src/FC_IMU/FC_IMU.cpp` function by function.

Conventions of the embedding.

* The target is an 8-bit AVR (the source programs `TIMSK2` and installs
  `ISR(TIMER2_OVF_vect)`), so `int` is 16 bits wide and `long`/`int32_t` is 32
  bits wide.  Machine integers are mathematical integers that are reduced
  explicitly (`wrapS16`, `wrapS32`, `wrapU16`) wherever the C++ expression is
  evaluated in, or converted to, a fixed-width type.
* The bus object `tw` and the Arduino call `delay` are outside the
  repository.  They are modelled by `TwoWire`: a log of the calls issued so
  far and, for the k-th call, the reply of the environment.  Quantifying over
  `TwoWire` quantifies over every behaviour of the bus.  A write to the I/O
  register `TIMSK2` is entered in the same log, so that the log keeps the
  program order of everything that leaves the program.
* Register names come from a header that is not part of the sources; they are
  kept symbolic (`Register`).
* Locals that the source leaves uninitialised are explicit arguments holding
  their indeterminate initial contents.
-/

/-! ## Fixed-width integers -/

/-- Conversion of an integer to `int16_t` (two's complement, 16 bits). -/
def wrapS16 (n : Int) : Int := (n + 32768) % 65536 - 32768

/-- Conversion of an integer to `int32_t` (two's complement, 32 bits). -/
def wrapS32 (n : Int) : Int := (n + 2147483648) % 4294967296 - 2147483648

/-- Conversion of an integer to `uint16_t`; also the bit pattern of an `int16_t`. -/
def wrapU16 (n : Int) : Nat := (n % 65536).toNat

/-- The C++ `a << k` on a 16-bit `int`. -/
def shl16 (a : Int) (k : Nat) : Int := wrapS16 (a * 2 ^ k)

/-- The C++ `a | b` on 16-bit `int` operands: bitwise or of the two's-complement patterns. -/
def or16 (a b : Int) : Int := wrapS16 (Int.ofNat (wrapU16 a ||| wrapU16 b))

/-- The C++ `a - b` on 16-bit `int` operands. -/
def sub16 (a b : Int) : Int := wrapS16 (a - b)

/-- The C++ `a << k` on a 16-bit `unsigned int`. -/
def shlU16 (a : Nat) (k : Nat) : Nat := (a <<< k) % 65536

/-! ## Arrays of three -/

/-- A C array of three elements (`x`, `y`, `z`). -/
structure Vec3 (α : Type) where
  a0 : α
  a1 : α
  a2 : α
deriving DecidableEq, Repr

/-- Array read `v[i]` for `i` in `0..2`. -/
def Vec3.get {α : Type} (v : Vec3 α) (i : Nat) : α :=
  match i with
  | 0 => v.a0
  | 1 => v.a1
  | _ => v.a2

/-- Array write `v[i] = x` for `i` in `0..2`. -/
def Vec3.set {α : Type} (v : Vec3 α) (i : Nat) (x : α) : Vec3 α :=
  match i with
  | 0 => { v with a0 := x }
  | 1 => { v with a1 := x }
  | _ => { v with a2 := x }

/-! ## The bus and the machine state -/

/-- Registers named by the driver (their addresses live in a header outside the sources). -/
inductive Register where
  | PWR_MGMT_1 | SMPRT_DIV | USER_CTRL | FIFO_EN | FIFO_COUNT_H | FIFO_R_W
  | INT_ENABLE | INT_STATUS | GYRO_CONFIG | ACCEL_CONFIG
  | ACCEL_XOUT_H | TEMP_OUT_H | GYRO_XOUT_H
deriving DecidableEq, Repr

/-- An effect that leaves the driver: a method of `tw`, `delay`, or a
write of `value` to the I/O register `TIMSK2`. -/
inductive Call where
  | read_bytes (addr : Nat) (reg : Register) (count : Nat)
  | read_byte (addr : Nat) (reg : Register)
  | read_packets (addr : Nat) (reg : Register) (count : Nat)
  | write_bit (addr : Nat) (reg : Register) (bit : Nat) (value : Nat)
  | write_bits (addr : Nat) (reg : Register) (start : Nat) (len : Nat) (value : Nat)
  | write_byte (addr : Nat) (reg : Register) (value : Nat)
  | delay (ms : Nat)
  | write_TIMSK2 (value : Nat)
deriving DecidableEq, Repr

/-- What the environment answers to one call: whether the returned value is
true (non-zero), and, for a read, the contents of the destination buffer
when the call returns. -/
structure Reply where
  ok : Bool
  buf : List Nat

/-- The bus object `tw` together with its environment. -/
structure TwoWire where
  reply : Nat → Reply
  log : List Call

/-- The reply the next call will receive. -/
def TwoWire.next (tw : TwoWire) : Reply := tw.reply tw.log.length

/-- Record one call. -/
def TwoWire.issue (tw : TwoWire) (c : Call) : TwoWire :=
  { tw with log := tw.log ++ [c] }

/-- Element `i` of a `uint8_t` buffer. -/
def byteAt (buf : List Nat) (i : Nat) : Nat := buf.getD i 0 % 256

/-- The fields of class `FC_IMU` that `FC_IMU.cpp` reads or writes. -/
structure FC_IMU where
  _i2c_address : Nat
  _gyro_fs_sel : Nat
  _accel_fs_sel : Nat
  _accel_data : Vec3 Int
  _gyro_data : Vec3 Int
  _accel_baseline : Vec3 Int
  _gyro_baseline : Vec3 Int
deriving DecidableEq, Repr

/-- The driver object, the globals it touches, and the bus. -/
structure Machine where
  imu : FC_IMU
  sensor_update_int : Bool
  TIMSK2 : Nat
  tw : TwoWire

/-- A write of `value` to the I/O register `TIMSK2`: the register takes the
value, and the write is entered in the log at its place in program order. -/
def Machine.write_TIMSK2 (m : Machine) (value : Nat) : Machine :=
  { m with TIMSK2 := value, tw := m.tw.issue (Call.write_TIMSK2 value) }

/-- Result of a function `bool f(int16_t *data)` filling a three-element buffer. -/
structure RawResult where
  ret : Bool
  data : Vec3 Int
  m : Machine

/-- Result of `bool temp_raw(int16_t *data)`, which fills `data[0]`. -/
structure TempResult where
  ret : Bool
  data : Int
  m : Machine

/-! ## Raw reads -/

/-- The expression `(( (uint16_t)(0 | h) ) << 8) | l`, assigned to an `int16_t`. -/
def assemble_u16 (h l : Nat) : Int :=
  wrapS16 (Int.ofNat (shlU16 ((0 ||| h) % 65536) 8 ||| l))

/-- The expression `(( (int16_t)(0 | h) ) << 8) | l`, assigned to an `int16_t`. -/
def assemble_s16 (h l : Nat) : Int :=
  wrapS16 (or16 (shl16 (wrapS16 (Int.ofNat (0 ||| h))) 8) (Int.ofNat l))

namespace FC_IMU

/-- `bool FC_IMU::accel_raw(int16_t *data)`. -/
def accel_raw (m : Machine) (data : Vec3 Int) : RawResult :=
  let r := m.tw.next
  let m1 := { m with tw := m.tw.issue (Call.read_bytes m.imu._i2c_address Register.ACCEL_XOUT_H 6) }
  let tmp_bytes := r.buf
  if r.ok then
    let data := data.set 0 (assemble_u16 (byteAt tmp_bytes 0) (byteAt tmp_bytes 1))
    let data := data.set 1 (assemble_u16 (byteAt tmp_bytes 2) (byteAt tmp_bytes 3))
    let data := data.set 2 (assemble_u16 (byteAt tmp_bytes 4) (byteAt tmp_bytes 5))
    { ret := true, data := data, m := m1 }
  else
    { ret := false, data := data, m := m1 }

/-- `bool FC_IMU::gyro_raw(int16_t *data)`. -/
def gyro_raw (m : Machine) (data : Vec3 Int) : RawResult :=
  let r := m.tw.next
  let m1 := { m with tw := m.tw.issue (Call.read_bytes m.imu._i2c_address Register.GYRO_XOUT_H 6) }
  let tmp_bytes := r.buf
  if r.ok then
    let data := data.set 0 (assemble_s16 (byteAt tmp_bytes 0) (byteAt tmp_bytes 1))
    let data := data.set 1 (assemble_s16 (byteAt tmp_bytes 2) (byteAt tmp_bytes 3))
    let data := data.set 2 (assemble_s16 (byteAt tmp_bytes 4) (byteAt tmp_bytes 5))
    { ret := true, data := data, m := m1 }
  else
    { ret := false, data := data, m := m1 }

/-- `bool FC_IMU::temp_raw(int16_t *data)`. -/
def temp_raw (m : Machine) (data : Int) : TempResult :=
  let r := m.tw.next
  let m1 := { m with tw := m.tw.issue (Call.read_bytes m.imu._i2c_address Register.TEMP_OUT_H 2) }
  let tmp_bytes := r.buf
  if r.ok then
    { ret := true, data := assemble_u16 (byteAt tmp_bytes 0) (byteAt tmp_bytes 1), m := m1 }
  else
    { ret := false, data := data, m := m1 }

/-- Result of a function returning `bool` and changing only the machine. -/
structure BoolResult where
  ret : Bool
  m : Machine

/-- Issue call `c` on the bus and hand back its truth value. -/
def tw_call (m : Machine) (c : Call) : BoolResult :=
  { ret := m.tw.next.ok, m := { m with tw := m.tw.issue c } }

/-! ## Register operations -/

/-- `bool FC_IMU::set_sleep(bool on)`. -/
def set_sleep (m : Machine) (on_ : Bool) : BoolResult :=
  if on_ then
    tw_call m (Call.write_bit m.imu._i2c_address Register.PWR_MGMT_1 6 1)
  else
    tw_call m (Call.write_bit m.imu._i2c_address Register.PWR_MGMT_1 6 0)

/-- `bool FC_IMU::set_clock_source(uint8_t clk)`. -/
def set_clock_source (m : Machine) (clk : Nat) : BoolResult :=
  tw_call m (Call.write_bits m.imu._i2c_address Register.PWR_MGMT_1 2 3 clk)

/-- `bool FC_IMU::set_clock_divider(uint8_t div)`. -/
def set_clock_divider (m : Machine) (div : Nat) : BoolResult :=
  tw_call m (Call.write_byte m.imu._i2c_address Register.SMPRT_DIV div)

/-- `bool FC_IMU::reset()`. -/
def reset (m : Machine) : BoolResult :=
  tw_call m (Call.write_bit m.imu._i2c_address Register.PWR_MGMT_1 7 1)

/-- `bool FC_IMU::fifo_enable(bool en)`. -/
def fifo_enable (m : Machine) (en : Bool) : BoolResult :=
  let bv := 0
  let bv := if en then 1 else bv
  tw_call m (Call.write_bit m.imu._i2c_address Register.USER_CTRL 6 bv)

/-- `bool FC_IMU::fifo_reset()`. -/
def fifo_reset (m : Machine) : BoolResult :=
  tw_call m (Call.write_bit m.imu._i2c_address Register.USER_CTRL 2 1)

/-- `bool FC_IMU::i2c_mstr_enable(bool en)`. -/
def i2c_mstr_enable (m : Machine) (en : Bool) : BoolResult :=
  let bv := 0
  let bv := if en then 1 else bv
  tw_call m (Call.write_bit m.imu._i2c_address Register.USER_CTRL 5 bv)

/-- `bool FC_IMU::i2c_mstr_reset()`. -/
def i2c_mstr_reset (m : Machine) : BoolResult :=
  tw_call m (Call.write_bit m.imu._i2c_address Register.USER_CTRL 1 1)

/-- `bool FC_IMU::fifo_enable_data(uint8_t fifo_en_mask)`. -/
def fifo_enable_data (m : Machine) (fifo_en_mask : Nat) : BoolResult :=
  tw_call m (Call.write_byte m.imu._i2c_address Register.FIFO_EN fifo_en_mask)

/-- `bool FC_IMU::enable_int_dataready(bool en)`. -/
def enable_int_dataready (m : Machine) (en : Bool) : BoolResult :=
  let b := 0
  let b := if en then 1 else b
  tw_call m (Call.write_bit m.imu._i2c_address Register.INT_ENABLE 0 b)

/-- `bool FC_IMU::gyro_set_range(uint8_t fs_sel)`. -/
def gyro_set_range (m : Machine) (fs_sel : Nat) : BoolResult :=
  let m := { m with imu := { m.imu with _gyro_fs_sel := fs_sel } }
  tw_call m (Call.write_bits m.imu._i2c_address Register.GYRO_CONFIG 4 2 fs_sel)

/-- `bool FC_IMU::accel_set_range(uint8_t fs_sel)`. -/
def accel_set_range (m : Machine) (fs_sel : Nat) : BoolResult :=
  let m := { m with imu := { m.imu with _accel_fs_sel := fs_sel } }
  tw_call m (Call.write_bits m.imu._i2c_address Register.ACCEL_CONFIG 4 2 fs_sel)

/-! ## The cached sample -/

/-- The expression `(((int16_t)h) << 8) | l` of `update_sensors`, of type `int`. -/
def cached_s16 (h l : Nat) : Int :=
  or16 (shl16 (wrapS16 (Int.ofNat h)) 8) (Int.ofNat l)

/-- `bool FC_IMU::update_sensors()`.  The result of `read_bytes` is not
looked at, and no `return` is executed, so only the machine is returned;
`data` is the 14-byte buffer as the call leaves it. -/
def update_sensors (m : Machine) : Machine :=
  let data := m.tw.next.buf
  let m := (tw_call m (Call.read_bytes m.imu._i2c_address Register.ACCEL_XOUT_H 14)).m
  let imu := m.imu
  let v := sub16 (cached_s16 (byteAt data 0) (byteAt data 1)) (imu._accel_baseline.get 0)
  let imu := { imu with _accel_data := imu._accel_data.set 0 v }
  let v := sub16 (cached_s16 (byteAt data 2) (byteAt data 3)) (imu._accel_baseline.get 1)
  let imu := { imu with _accel_data := imu._accel_data.set 1 v }
  let v := sub16 (cached_s16 (byteAt data 4) (byteAt data 5)) (imu._accel_baseline.get 2)
  let imu := { imu with _accel_data := imu._accel_data.set 2 v }
  let v := sub16 (cached_s16 (byteAt data 8) (byteAt data 9)) (imu._gyro_baseline.get 0)
  let imu := { imu with _gyro_data := imu._gyro_data.set 0 v }
  let v := sub16 (cached_s16 (byteAt data 10) (byteAt data 11)) (imu._gyro_baseline.get 1)
  let imu := { imu with _gyro_data := imu._gyro_data.set 1 v }
  let v := sub16 (cached_s16 (byteAt data 12) (byteAt data 13)) (imu._gyro_baseline.get 2)
  let imu := { imu with _gyro_data := imu._gyro_data.set 2 v }
  { m with imu := imu }

/-! ## Calibration -/

/-- The locals of `set_baseline`.  None of them is initialised by the
source, so a call starts from arbitrary contents. -/
structure BaselineLocals where
  tmp_acc : Vec3 Int
  tmp_gyro : Vec3 Int
  acc_tot : Vec3 Int
  gyro_tot : Vec3 Int
deriving DecidableEq, Repr

/-- One pass of `for (int j = 0; j < 3; j++)`: both running sums take the
sample of axis `j`; the sums are `int32_t`. -/
def accumulate_axis (l : BaselineLocals) (j : Nat) : BaselineLocals :=
  let a := wrapS32 (l.acc_tot.get j + l.tmp_acc.get j)
  let l := { l with acc_tot := l.acc_tot.set j a }
  let g := wrapS32 (l.gyro_tot.get j + l.tmp_gyro.get j)
  { l with gyro_tot := l.gyro_tot.set j g }

/-- The body of the sampling loop of `set_baseline`. -/
def set_baseline_body (l : BaselineLocals) (m : Machine) : BaselineLocals × Machine :=
  let ra := accel_raw m l.tmp_acc
  let l := { l with tmp_acc := ra.data }
  let rg := gyro_raw ra.m l.tmp_gyro
  let l := { l with tmp_gyro := rg.data }
  let l := (List.range 3).foldl accumulate_axis l
  let m := (tw_call rg.m (Call.delay 100)).m
  (l, m)

/-- The loop `for (int i = 10; i --> 0;)`, entered with counter `i`: the
test `i-- > 0` leaves the loop at zero, otherwise it decrements and runs the
body. -/
def set_baseline_loop : Nat → BaselineLocals → Machine → BaselineLocals × Machine
  | 0, l, m => (l, m)
  | i + 1, l, m =>
    let s := set_baseline_body l m
    set_baseline_loop i s.1 s.2

/-- One pass of the closing loop of `set_baseline`: axis `i` of both baselines. -/
def store_baseline (l : BaselineLocals) (imu : FC_IMU) (i : Nat) : FC_IMU :=
  let a := wrapS16 (Int.tdiv (l.acc_tot.get i) 10)
  let imu := { imu with _accel_baseline := imu._accel_baseline.set i a }
  let g := wrapS16 (Int.tdiv (l.gyro_tot.get i) 10)
  { imu with _gyro_baseline := imu._gyro_baseline.set i g }

/-- `void FC_IMU::set_baseline()`, started with `l` in its locals. -/
def set_baseline (l : BaselineLocals) (m : Machine) : Machine :=
  let s := set_baseline_loop 10 l m
  { s.2 with imu := (List.range 3).foldl (store_baseline s.1) s.2.imu }

/-! ## Conversion to physical units -/

/-- The `float` operations the driver uses.  The theorems hold for every
interpretation of them; `exactOps` interprets them as exact arithmetic. -/
structure FloatOps (F : Type) where
  ofInt : Int → F
  sub : F → F → F
  mul : F → F → F
  div : F → F → F
  lit_2_5 : F
  lit_neg_1 : F

/-- Exact rational arithmetic. -/
def exactOps : FloatOps ℚ where
  ofInt := fun n => (n : ℚ)
  sub := fun a b => a - b
  mul := fun a b => a * b
  div := fun a b => a / b
  lit_2_5 := 5 / 2
  lit_neg_1 := -1

/-- Result of a function filling a three-element `float` buffer; no
`return` is executed, so there is no returned value. -/
structure FloatResult (F : Type) where
  data : Vec3 F
  m : Machine

/-- One pass of the loop of `gyro_rate`, for index `i`; `lsb` is `(float)GYRO_LSB_0`. -/
def gyro_rate_axis {F : Type} (A : FloatOps F) (lsb : F) (tmp_data : Vec3 Int)
    (data : Vec3 F) (i : Nat) : Vec3 F :=
  let data := data.set i (A.div (A.ofInt (tmp_data.get i)) lsb)
  if i = 1 then
    let data := data.set i (A.sub (data.get i) A.lit_2_5)
    data.set i (A.mul (data.get i) A.lit_neg_1)
  else
    data

/-- `bool FC_IMU::gyro_rate(float *data)`.  `GYRO_LSB_0` is the value of
`(float)GYRO_LSB_0`, a constant of a header outside the sources;
`tmp_data` is the initial content of the local of that name. -/
def gyro_rate {F : Type} (A : FloatOps F) (GYRO_LSB_0 : F) (tmp_data : Vec3 Int)
    (m : Machine) (data : Vec3 F) : FloatResult F :=
  let r := gyro_raw m tmp_data
  let tmp_data := r.data
  { data := (List.range 3).foldl (gyro_rate_axis A GYRO_LSB_0 tmp_data) data, m := r.m }

/-- `bool FC_IMU::accel_angle(float *data)`.  The function declares
`tmp_angle` only; the `tmp_data` it reads is a variable declared outside the
sources, whose content is the argument `tmp_data`.  `ACCEL_LSB_0` is the value
of `(float)ACCEL_LSB_0`, `atan2` the library function and `deg` the value of
`180 / PI`. -/
def accel_angle {F : Type} (A : FloatOps F) (atan2 : F → F → F) (deg : F) (ACCEL_LSB_0 : F)
    (tmp_data : Vec3 Int) (tmp_angle : Vec3 F) (m : Machine) (data : Vec3 F) : FloatResult F :=
  let tmp_angle := (List.range 3).foldl
    (fun t i => t.set i (A.div (A.ofInt (tmp_data.get i)) ACCEL_LSB_0)) tmp_angle
  let data := data.set 0 (A.mul (atan2 (tmp_angle.get 1) (tmp_angle.get 2)) deg)
  let data := data.set 1 (A.mul (atan2 (tmp_angle.get 0) (tmp_angle.get 2)) deg)
  let data := data.set 2 (A.mul (atan2 (tmp_angle.get 0) (tmp_angle.get 1)) deg)
  { data := data, m := m }

/-! ## The sample buffer of the device -/

/-- Result of a function returning `uint16_t` and changing only the machine. -/
structure CountResult where
  ret : Nat
  m : Machine

/-- `uint16_t FC_IMU::fifo_get_count()`.  The result of `read_bytes` is not
looked at; `tmp_cnt` is the two-byte buffer as the call leaves it. -/
def fifo_get_count (m : Machine) : CountResult :=
  let tmp_cnt := m.tw.next.buf
  let m := (tw_call m (Call.read_bytes m.imu._i2c_address Register.FIFO_COUNT_H 2)).m
  { ret := (shlU16 (byteAt tmp_cnt 0 % 65536) 8 ||| byteAt tmp_cnt 1) % 65536, m := m }

/-! ## Start-up and the timer interrupt -/

/-- `void FC_IMU::init()`.  `TOIE2` is the bit number from the AVR headers,
`l` the initial content of the locals of `set_baseline`. -/
def init (TOIE2 : Nat) (l : BaselineLocals) (m : Machine) : Machine :=
  let m := (set_clock_source m 1).m
  let m := (gyro_set_range m 0).m
  let m := (accel_set_range m 0).m
  let m := (set_sleep m false).m
  let m := set_baseline l m
  let m := m.write_TIMSK2 ((m.TIMSK2 ||| (1 <<< TOIE2)) % 256)
  update_sensors m

/-- `ISR(TIMER2_OVF_vect)`. -/
def TIMER2_OVF_vect (m : Machine) : Machine :=
  { m with sensor_update_int := true }

end FC_IMU

/-! ## Reference values -/

/-- Big-endian two's-complement value of the byte pair `(h, l)`. -/
def be16 (h l : Nat) : Int :=
  if 128 ≤ h then 256 * (h : Int) + l - 65536 else 256 * (h : Int) + l

/-! ## Concrete machines -/

/-- A bus that answers every call alike. -/
def steadyBus (ok : Bool) (buf : List Nat) : TwoWire :=
  { reply := fun _ => { ok := ok, buf := buf }, log := [] }

/-- The array `{0, 0, 0}`. -/
def zero3 : Vec3 Int := { a0 := 0, a1 := 0, a2 := 0 }

/-- A driver at the default address 0x68 with baselines `ab` and `gb`. -/
def imuWith (ab gb : Vec3 Int) : FC_IMU :=
  { _i2c_address := 0x68, _gyro_fs_sel := 0, _accel_fs_sel := 0,
    _accel_data := zero3, _gyro_data := zero3, _accel_baseline := ab, _gyro_baseline := gb }

/-- A machine with a freshly constructed driver on bus `tw`. -/
def machineOn (tw : TwoWire) : Machine :=
  { imu := imuWith zero3 zero3, sensor_update_int := false, TIMSK2 := 0, tw := tw }

/-- Locals of `set_baseline` that happen to hold zeros. -/
def zeroLocals : FC_IMU.BaselineLocals :=
  { tmp_acc := zero3, tmp_gyro := zero3, acc_tot := zero3, gyro_tot := zero3 }

/-- A machine whose bus always succeeds with the bytes `80 00 7f ff ff fe`. -/
def extremesMachine : Machine :=
  machineOn (steadyBus true [0x80, 0x00, 0x7f, 0xff, 0xff, 0xfe])

/-- A machine with accelerometer baseline `ab` and gyroscope baseline `gb`
whose bus always succeeds and leaves `buf` in the destination buffer. -/
def machineWith (ab gb : Vec3 Int) (buf : List Nat) : Machine :=
  { imu := imuWith ab gb, sensor_update_int := false, TIMSK2 := 0, tw := steadyBus true buf }

/-- The cached sample as the specification words it: the accelerometer axes
are what `accel_raw` decodes from bytes 0..5 of the block and the gyroscope
axes what `gyro_raw` decodes from bytes 8..13, each less its baseline, kept
in 16 bits. -/
def cached_sample_from_raw (m : Machine) : Vec3 Int × Vec3 Int :=
  let block := m.tw.next.buf
  let a := (FC_IMU.accel_raw (machineOn (steadyBus true (block.take 6))) zero3).data
  let g := (FC_IMU.gyro_raw (machineOn (steadyBus true ((block.drop 8).take 6))) zero3).data
  ({ a0 := wrapS16 (a.a0 - m.imu._accel_baseline.a0),
     a1 := wrapS16 (a.a1 - m.imu._accel_baseline.a1),
     a2 := wrapS16 (a.a2 - m.imu._accel_baseline.a2) },
   { a0 := wrapS16 (g.a0 - m.imu._gyro_baseline.a0),
     a1 := wrapS16 (g.a1 - m.imu._gyro_baseline.a1),
     a2 := wrapS16 (g.a2 - m.imu._gyro_baseline.a2) })

/-- A machine whose next block holds the accelerometer x reading `7f ff`
(32767), with accelerometer baseline x equal to -1. -/
def topReadingMachine : Machine :=
  machineWith { a0 := -1, a1 := 0, a2 := 0 } zero3
    [0x7f, 0xff, 0, 0, 0, 0, 0, 0, 0, 0, 0, 0, 0, 0]

/-- A machine whose next block holds the gyroscope y reading `80 00`
(-32768), with gyroscope baseline y equal to 1. -/
def bottomReadingMachine : Machine :=
  machineWith zero3 { a0 := 0, a1 := 1, a2 := 0 }
    [0, 0, 0, 0, 0, 0, 0, 0, 0, 0, 0x80, 0x00, 0, 0]

/-- A machine with baselines `(100, -200, 300)` and `(-5, 6, -7)` whose next
block is `bytes`. -/
def sampleMachine (bytes : List Nat) : Machine :=
  machineWith { a0 := 100, a1 := -200, a2 := 300 } { a0 := -5, a1 := 6, a2 := -7 } bytes

/-- Locals of `set_baseline` in which the accelerometer x sum happens to
start at 10 and everything else at zero. -/
def leftoverSumLocals : FC_IMU.BaselineLocals :=
  { tmp_acc := zero3, tmp_gyro := zero3, acc_tot := { a0 := 10, a1 := 0, a2 := 0 },
    gyro_tot := zero3 }

/-- A machine whose bus always succeeds and delivers zero bytes. -/
def restMachine : Machine := machineOn (steadyBus true [0, 0, 0, 0, 0, 0])

/-- A machine on which every bus call fails. -/
def deadMachine : Machine := machineOn (steadyBus false [])

/-- Locals of `set_baseline` whose accelerometer buffer happens to hold
`(7, 0, 0)`, everything else zero. -/
def leftoverBufferLocals : FC_IMU.BaselineLocals :=
  { tmp_acc := { a0 := 7, a1 := 0, a2 := 0 }, tmp_gyro := zero3, acc_tot := zero3,
    gyro_tot := zero3 }

/-- Sums of `set_baseline` after `i` iterations in which the buffer kept the
content `t`, started from `a`. -/
def repeatedSum (a t : Vec3 Int) (i : Nat) : Vec3 Int :=
  { a0 := wrapS32 (a.a0 + i * t.a0), a1 := wrapS32 (a.a1 + i * t.a1),
    a2 := wrapS32 (a.a2 + i * t.a2) }

/-- A buffer that happens to hold `(131, 0, 0)`. -/
def leftoverReading : Vec3 Int := { a0 := 131, a1 := 0, a2 := 0 }

/-- Gyroscope scale factors (counts per degree per second) of the four
ranges 250, 500, 1000 and 2000 degrees per second, as an example table. -/
def exampleGyroLsb (fs_sel : Nat) : ℚ :=
  match fs_sel with
  | 0 => 131
  | 1 => 131 / 2
  | 2 => 164 / 5
  | _ => 82 / 5

/-- A machine whose bus always succeeds and delivers the gyroscope sample
`(131, 0, 131)`, with gyroscope baseline `gb`. -/
def turningMachine (gb : Vec3 Int) : Machine :=
  machineWith zero3 gb [0, 131, 0, 0, 0, 131]

/-- The gyroscope baseline `(131, 0, 131)`. -/
def turningBaseline : Vec3 Int := { a0 := 131, a1 := 0, a2 := 131 }

/-- A bus on which the first four calls fail and every later call succeeds
and delivers zero bytes. -/
def refusingBus : TwoWire :=
  { reply := fun k => if k < 4 then { ok := false, buf := [] } else { ok := true, buf := [] },
    log := [] }

/-- A bus on which every call succeeds and delivers zero bytes. -/
def willingBus : TwoWire := steadyBus true []

/-- Two machines that cannot be told apart from now on: the same driver
object, globals and log, and the same replies to every call still to come. -/
def SameFromNow (m1 m2 : Machine) : Prop :=
  m1.imu = m2.imu ∧ m1.sensor_update_int = m2.sensor_update_int ∧ m1.TIMSK2 = m2.TIMSK2 ∧
    m1.tw.log = m2.tw.log ∧ ∀ k, m1.tw.log.length ≤ k → m1.tw.reply k = m2.tw.reply k

/-- The calls of one sampling iteration of `set_baseline` at device address `addr`. -/
def samplingRound (addr : Nat) : List Call :=
  [Call.read_bytes addr Register.ACCEL_XOUT_H 6,
   Call.read_bytes addr Register.GYRO_XOUT_H 6,
   Call.delay 100]

/-- The calls of `i` sampling iterations in a row. -/
def samplingRounds (addr : Nat) : Nat → List Call
  | 0 => []
  | i + 1 => samplingRound addr ++ samplingRounds addr i

/-- Total of the delays requested in a list of calls, in milliseconds. -/
def delayTotal : List Call → Nat
  | [] => 0
  | Call.delay ms :: rest => ms + delayTotal rest
  | _ :: rest => delayTotal rest

/-- Every element of the array lies in `lo..hi`. -/
def Vec3.within (v : Vec3 Int) (lo hi : Int) : Prop :=
  (lo ≤ v.a0 ∧ v.a0 ≤ hi) ∧ (lo ≤ v.a1 ∧ v.a1 ≤ hi) ∧ (lo ≤ v.a2 ∧ v.a2 ≤ hi)

/-- Element-wise sum of two arrays, as mathematical integers. -/
def Vec3.plus (a b : Vec3 Int) : Vec3 Int :=
  { a0 := a.a0 + b.a0, a1 := a.a1 + b.a1, a2 := a.a2 + b.a2 }

/-- A machine whose bus always succeeds with `80 00 7f ff ff fe`, for calibration runs. -/
def swingMachine : Machine := machineOn (steadyBus true [0x80, 0x00, 0x7f, 0xff, 0xff, 0xfe])

/-- The machine as `init` hands it to `set_baseline`: after the clock-source,
gyroscope-range, accelerometer-range and sleep-bit calls. -/
def configured (m : Machine) : Machine :=
  (FC_IMU.set_sleep (FC_IMU.accel_set_range (FC_IMU.gyro_set_range
    (FC_IMU.set_clock_source m 1).m 0).m 0).m false).m

/-- The four configuration writes of `init` at device address `addr`, in order. -/
def configWrites (addr : Nat) : List Call :=
  [Call.write_bits addr Register.PWR_MGMT_1 2 3 1,
   Call.write_bits addr Register.GYRO_CONFIG 4 2 0,
   Call.write_bits addr Register.ACCEL_CONFIG 4 2 0,
   Call.write_bit addr Register.PWR_MGMT_1 6 0]

/-- Float expressions kept unevaluated: the interpretation of the `float`
operations that records which operation is applied to which operands.
`atan2` is the library function and `deg_per_rad` the constant `180 / PI`. -/
inductive FloatTerm where
  | ofInt (n : Int)
  | sub (a b : FloatTerm)
  | mul (a b : FloatTerm)
  | div (a b : FloatTerm)
  | lit_2_5
  | lit_neg_1
  | atan2 (y x : FloatTerm)
  | deg_per_rad
deriving DecidableEq, Repr

/-- The `float` operations as constructors of `FloatTerm`. -/
def termOps : FC_IMU.FloatOps FloatTerm :=
  { ofInt := FloatTerm.ofInt, sub := FloatTerm.sub, mul := FloatTerm.mul, div := FloatTerm.div,
    lit_2_5 := FloatTerm.lit_2_5, lit_neg_1 := FloatTerm.lit_neg_1 }

/-- A level machine: the accelerometer registers hold `(0, 0, 16384)`,
gravity on the z axis alone at 16384 counts per g, and every read succeeds. -/
def levelMachine : Machine :=
  machineWith zero3 zero3 [0, 0, 0, 0, 0x40, 0x00, 0, 0, 0, 0, 0, 0, 0, 0]

/-- A content of the variable `tmp_data` that is not the sample of a level
machine: `(16384, 16384, 0)`. -/
def unrelatedBuffer : Vec3 Int := { a0 := 16384, a1 := 16384, a2 := 0 }

/-- An output buffer of three `float` values, all `(float)0`. -/
def clearedAngles : Vec3 FloatTerm :=
  { a0 := FloatTerm.ofInt 0, a1 := FloatTerm.ofInt 0, a2 := FloatTerm.ofInt 0 }

/-! ## The PID controllers of `FlightController` -/

/-- `PID_RATE_ROL`, the index of the rate-roll controller in `_pids`. -/
def PID_RATE_ROL : Nat := 0
/-- `PID_RATE_ROL_P`. -/
def PID_RATE_ROL_P : ℚ := 1 / 2
/-- `PID_RATE_ROL_I`. -/
def PID_RATE_ROL_I : ℚ := 1 / 2
/-- `PID_RATE_ROL_D`. -/
def PID_RATE_ROL_D : ℚ := 1 / 2
/-- `PID_RATE_ROL_IL`. -/
def PID_RATE_ROL_IL : ℚ := 1 / 2

/-- `PID_RATE_PIT`, the index of the rate-pitch controller. -/
def PID_RATE_PIT : Nat := 1
/-- `PID_RATE_PIT_P`. -/
def PID_RATE_PIT_P : ℚ := 1 / 2
/-- `PID_RATE_PIT_I`. -/
def PID_RATE_PIT_I : ℚ := 1 / 2
/-- `PID_RATE_PIT_D`. -/
def PID_RATE_PIT_D : ℚ := 1 / 2
/-- `PID_RATE_PIT_IL`. -/
def PID_RATE_PIT_IL : ℚ := 1 / 2

/-- `PID_RATE_YAW`, the index of the rate-yaw controller. -/
def PID_RATE_YAW : Nat := 2
/-- `PID_RATE_YAW_P`. -/
def PID_RATE_YAW_P : ℚ := 1 / 2
/-- `PID_RATE_YAW_I`. -/
def PID_RATE_YAW_I : ℚ := 1 / 2
/-- `PID_RATE_YAW_D`. -/
def PID_RATE_YAW_D : ℚ := 1 / 2
/-- `PID_RATE_YAW_IL`. -/
def PID_RATE_YAW_IL : ℚ := 1 / 2

/-- `PID_STAB_ROL`, the index of the stabilize-roll controller. -/
def PID_STAB_ROL : Nat := 3
/-- `PID_STAB_ROL_P`. -/
def PID_STAB_ROL_P : ℚ := 1 / 2
/-- `PID_STAB_ROL_I`. -/
def PID_STAB_ROL_I : ℚ := 1 / 2
/-- `PID_STAB_ROL_D`. -/
def PID_STAB_ROL_D : ℚ := 1 / 2
/-- `PID_STAB_ROL_IL`. -/
def PID_STAB_ROL_IL : ℚ := 1 / 2

/-- `PID_STAB_PIT`, the index of the stabilize-pitch controller. -/
def PID_STAB_PIT : Nat := 4
/-- `PID_STAB_PIT_P`. -/
def PID_STAB_PIT_P : ℚ := 1 / 2
/-- `PID_STAB_PIT_I`. -/
def PID_STAB_PIT_I : ℚ := 1 / 2
/-- `PID_STAB_PIT_D`. -/
def PID_STAB_PIT_D : ℚ := 1 / 2
/-- `PID_STAB_PIT_IL`. -/
def PID_STAB_PIT_IL : ℚ := 1 / 2

/-- `PID_STAB_YAW`, the index of the stabilize-yaw controller. -/
def PID_STAB_YAW : Nat := 5
/-- `PID_STAB_YAW_P`. -/
def PID_STAB_YAW_P : ℚ := 1 / 2
/-- `PID_STAB_YAW_I`. -/
def PID_STAB_YAW_I : ℚ := 1 / 2
/-- `PID_STAB_YAW_D`. -/
def PID_STAB_YAW_D : ℚ := 1 / 2
/-- `PID_STAB_YAW_IL`. -/
def PID_STAB_YAW_IL : ℚ := 1 / 2

/-- Modelled from the spec: the state of class `PID`, whose header `PID.h`
is not among the sources.  It holds the three gains, the integral limit, the
integral accumulator, the previous error and the last output; numbers are
exact rationals. -/
structure PID where
  kp : ℚ
  ki : ℚ
  kd : ℚ
  integral_limit : ℚ
  integral : ℚ
  previous_error : ℚ
  output : ℚ
deriving DecidableEq

/-- Modelled from the spec: the clamping of the accumulator to the
symmetric range `-limit..limit`, which `PID.h` would implement. -/
def clampSymmetric (limit x : ℚ) : ℚ :=
  if x < -limit then -limit else if limit < x then limit else x

/-- Modelled from the spec: one invocation of the PID controller of `PID.h`
with a setpoint and a measured value.  The error is setpoint less measured
value; the accumulator takes error times integral gain and is clamped to the
integral limit; the derivative term is the derivative gain times the change
of the error over one cycle; the output is proportional term plus accumulator
plus derivative term; the previous error is replaced. -/
def PID.update (p : PID) (setpoint measured : ℚ) : PID :=
  let error := setpoint - measured
  let integral := clampSymmetric p.integral_limit (p.integral + error * p.ki)
  let derivative := p.kd * (error - p.previous_error)
  { p with integral := integral, previous_error := error,
           output := p.kp * error + integral + derivative }

/-- Modelled from the spec: a controller as created at initialisation, with
fixed gains and limit, zero accumulator and zero previous error. -/
def PID.create (kp ki kd limit : ℚ) : PID :=
  { kp := kp, ki := ki, kd := kd, integral_limit := limit, integral := 0,
    previous_error := 0, output := 0 }

namespace FlightController

/-- Modelled from the spec: the member `PID _pids[6]` as
`FlightController::_setup_pids`, which is declared but not among the sources,
would fill it: the controller at each index gets the four constants that
`FlightController.h` defines for that index. -/
def _pids (i : Fin 6) : PID :=
  if i.val = PID_RATE_ROL then
    PID.create PID_RATE_ROL_P PID_RATE_ROL_I PID_RATE_ROL_D PID_RATE_ROL_IL
  else if i.val = PID_RATE_PIT then
    PID.create PID_RATE_PIT_P PID_RATE_PIT_I PID_RATE_PIT_D PID_RATE_PIT_IL
  else if i.val = PID_RATE_YAW then
    PID.create PID_RATE_YAW_P PID_RATE_YAW_I PID_RATE_YAW_D PID_RATE_YAW_IL
  else if i.val = PID_STAB_ROL then
    PID.create PID_STAB_ROL_P PID_STAB_ROL_I PID_STAB_ROL_D PID_STAB_ROL_IL
  else if i.val = PID_STAB_PIT then
    PID.create PID_STAB_PIT_P PID_STAB_PIT_I PID_STAB_PIT_D PID_STAB_PIT_IL
  else
    PID.create PID_STAB_YAW_P PID_STAB_YAW_I PID_STAB_YAW_D PID_STAB_YAW_IL

/-- The integral limit that `FlightController.h` configures for index `i`. -/
def integral_limit_of (i : Fin 6) : ℚ :=
  if i.val = PID_RATE_ROL then PID_RATE_ROL_IL
  else if i.val = PID_RATE_PIT then PID_RATE_PIT_IL
  else if i.val = PID_RATE_YAW then PID_RATE_YAW_IL
  else if i.val = PID_STAB_ROL then PID_STAB_ROL_IL
  else if i.val = PID_STAB_PIT then PID_STAB_PIT_IL
  else PID_STAB_YAW_IL

end FlightController

/-- The controller after a sequence of (setpoint, measured value) inputs. -/
def PID.run (p : PID) (inputs : List (ℚ × ℚ)) : PID :=
  inputs.foldl (fun q x => q.update x.1 x.2) p

/-! ## Lemmas on the byte assembly -/

theorem byteAt_lt (buf : List Nat) (i : Nat) : byteAt buf i < 256 := by
  unfold byteAt
  omega

theorem or_low_byte (h l : Nat) (hl : l < 256) : (h * 256) ||| l = h * 256 + l := by
  have key := Nat.mul_add_lt_is_or (i := 8) hl h
  rw [Nat.mul_comm h 256]
  simpa using key.symm

theorem assemble_u16_eq (h l : Nat) (hh : h < 256) (hl : l < 256) :
    assemble_u16 h l = be16 h l := by
  unfold assemble_u16 shlU16 wrapS16 be16
  have e1 : (0 ||| h) = h := by simp
  rw [e1, Nat.shiftLeft_eq]
  have e2 : h % 65536 * 2 ^ 8 % 65536 = h * 256 := by omega
  rw [e2, or_low_byte h l hl]
  simp only [Int.ofNat_eq_coe]
  push_cast
  split <;> omega

theorem assemble_s16_eq (h l : Nat) (hh : h < 256) (hl : l < 256) :
    assemble_s16 h l = be16 h l := by
  unfold assemble_s16 or16 shl16 wrapU16
  have e1 : (0 ||| h) = h := by simp
  rw [e1]
  have e2 : ((wrapS16 (wrapS16 (Int.ofNat h) * 2 ^ 8)) % 65536).toNat = h * 256 := by
    unfold wrapS16
    simp only [Int.ofNat_eq_coe]
    omega
  have e3 : ((Int.ofNat l) % 65536).toNat = l := by
    simp only [Int.ofNat_eq_coe]
    omega
  rw [e2, e3, or_low_byte h l hl]
  unfold wrapS16 be16
  simp only [Int.ofNat_eq_coe]
  push_cast
  split <;> omega

/-! ## Raw reads (C1, C5) -/

/-- C1: when the bus read succeeds, every axis value produced by `accel_raw`,
`gyro_raw` and `temp_raw` is the big-endian two's-complement value of its byte
pair, `256 * H + L`, less `65536` when `H >= 128`, the first byte of the pair
being the high byte. -/
theorem raw_reads_are_big_endian_signed (m : Machine) (data : Vec3 Int) (t : Int)
    (hok : m.tw.next.ok = true) :
    (FC_IMU.accel_raw m data).data =
        { a0 := be16 (byteAt m.tw.next.buf 0) (byteAt m.tw.next.buf 1),
          a1 := be16 (byteAt m.tw.next.buf 2) (byteAt m.tw.next.buf 3),
          a2 := be16 (byteAt m.tw.next.buf 4) (byteAt m.tw.next.buf 5) } ∧
    (FC_IMU.gyro_raw m data).data =
        { a0 := be16 (byteAt m.tw.next.buf 0) (byteAt m.tw.next.buf 1),
          a1 := be16 (byteAt m.tw.next.buf 2) (byteAt m.tw.next.buf 3),
          a2 := be16 (byteAt m.tw.next.buf 4) (byteAt m.tw.next.buf 5) } ∧
    (FC_IMU.temp_raw m t).data = be16 (byteAt m.tw.next.buf 0) (byteAt m.tw.next.buf 1) := by
  refine ⟨?_, ?_, ?_⟩
  · simp [FC_IMU.accel_raw, hok, Vec3.set, assemble_u16_eq, byteAt_lt]
  · simp [FC_IMU.gyro_raw, hok, Vec3.set, assemble_s16_eq, byteAt_lt]
  · simp [FC_IMU.temp_raw, hok, assemble_u16_eq, byteAt_lt]

theorem raw_reads_are_big_endian_signed_witness :
    extremesMachine.tw.next.ok = true ∧
    (FC_IMU.accel_raw extremesMachine zero3).data = { a0 := -32768, a1 := 32767, a2 := -2 } ∧
    (FC_IMU.gyro_raw extremesMachine zero3).data = { a0 := -32768, a1 := 32767, a2 := -2 } ∧
    (FC_IMU.temp_raw extremesMachine 0).data = -32768 :=
  ⟨rfl,
   (raw_reads_are_big_endian_signed extremesMachine zero3 0 rfl).1.trans (by decide),
   (raw_reads_are_big_endian_signed extremesMachine zero3 0 rfl).2.1.trans (by decide),
   (raw_reads_are_big_endian_signed extremesMachine zero3 0 rfl).2.2.trans (by decide)⟩

/-- C5: `accel_raw`, `gyro_raw` and `temp_raw` each issue exactly one block
read (of 6, 6 and 2 bytes, at the driver's address, from `ACCEL_XOUT_H`,
`GYRO_XOUT_H` and `TEMP_OUT_H`), return exactly the success result of that
read, and on failure return `false` with the caller's buffer unchanged. -/
theorem raw_reads_one_call_and_result (m : Machine) (data : Vec3 Int) (t : Int) :
    ((FC_IMU.accel_raw m data).m.tw.log =
        m.tw.log ++ [Call.read_bytes m.imu._i2c_address Register.ACCEL_XOUT_H 6] ∧
      (FC_IMU.gyro_raw m data).m.tw.log =
        m.tw.log ++ [Call.read_bytes m.imu._i2c_address Register.GYRO_XOUT_H 6] ∧
      (FC_IMU.temp_raw m t).m.tw.log =
        m.tw.log ++ [Call.read_bytes m.imu._i2c_address Register.TEMP_OUT_H 2]) ∧
    ((FC_IMU.accel_raw m data).ret = m.tw.next.ok ∧
      (FC_IMU.gyro_raw m data).ret = m.tw.next.ok ∧
      (FC_IMU.temp_raw m t).ret = m.tw.next.ok) ∧
    (m.tw.next.ok = false →
      ((FC_IMU.accel_raw m data).ret = false ∧ (FC_IMU.accel_raw m data).data = data) ∧
      ((FC_IMU.gyro_raw m data).ret = false ∧ (FC_IMU.gyro_raw m data).data = data) ∧
      ((FC_IMU.temp_raw m t).ret = false ∧ (FC_IMU.temp_raw m t).data = t)) := by
  refine ⟨⟨?_, ?_, ?_⟩, ⟨?_, ?_, ?_⟩, ?_⟩
  · by_cases h : m.tw.next.ok = true <;> simp [FC_IMU.accel_raw, h, TwoWire.issue]
  · by_cases h : m.tw.next.ok = true <;> simp [FC_IMU.gyro_raw, h, TwoWire.issue]
  · by_cases h : m.tw.next.ok = true <;> simp [FC_IMU.temp_raw, h, TwoWire.issue]
  · by_cases h : m.tw.next.ok = true <;> simp [FC_IMU.accel_raw, h]
  · by_cases h : m.tw.next.ok = true <;> simp [FC_IMU.gyro_raw, h]
  · by_cases h : m.tw.next.ok = true <;> simp [FC_IMU.temp_raw, h]
  · intro hfail
    simp [FC_IMU.accel_raw, FC_IMU.gyro_raw, FC_IMU.temp_raw, hfail]

theorem raw_reads_one_call_and_result_witness :
    (machineOn (steadyBus false [1, 2, 3, 4, 5, 6])).tw.next.ok = false ∧
    (FC_IMU.accel_raw (machineOn (steadyBus false [1, 2, 3, 4, 5, 6])) zero3).data = zero3 ∧
    (FC_IMU.temp_raw (machineOn (steadyBus false [1, 2, 3, 4, 5, 6])) 7).data = 7 :=
  ⟨rfl,
   ((raw_reads_one_call_and_result (machineOn (steadyBus false [1, 2, 3, 4, 5, 6]))
      zero3 7).2.2 rfl).1.2,
   ((raw_reads_one_call_and_result (machineOn (steadyBus false [1, 2, 3, 4, 5, 6]))
      zero3 7).2.2 rfl).2.2.2⟩

/-! ## The cached sample (C3, C4) -/

theorem cached_s16_eq (h l : Nat) (hh : h < 256) (hl : l < 256) :
    FC_IMU.cached_s16 h l = be16 h l := by
  have key := assemble_s16_eq h l hh hl
  unfold assemble_s16 at key
  unfold FC_IMU.cached_s16
  have e1 : (0 ||| h) = h := by simp
  rw [e1] at key
  rw [← key]
  unfold or16 wrapS16
  omega

/-- The driver object after `update_sensors`, in closed form. -/
theorem update_sensors_imu (m : Machine) :
    (FC_IMU.update_sensors m).imu =
      { m.imu with
        _accel_data :=
          { a0 := wrapS16 (be16 (byteAt m.tw.next.buf 0) (byteAt m.tw.next.buf 1)
                    - m.imu._accel_baseline.a0),
            a1 := wrapS16 (be16 (byteAt m.tw.next.buf 2) (byteAt m.tw.next.buf 3)
                    - m.imu._accel_baseline.a1),
            a2 := wrapS16 (be16 (byteAt m.tw.next.buf 4) (byteAt m.tw.next.buf 5)
                    - m.imu._accel_baseline.a2) },
        _gyro_data :=
          { a0 := wrapS16 (be16 (byteAt m.tw.next.buf 8) (byteAt m.tw.next.buf 9)
                    - m.imu._gyro_baseline.a0),
            a1 := wrapS16 (be16 (byteAt m.tw.next.buf 10) (byteAt m.tw.next.buf 11)
                    - m.imu._gyro_baseline.a1),
            a2 := wrapS16 (be16 (byteAt m.tw.next.buf 12) (byteAt m.tw.next.buf 13)
                    - m.imu._gyro_baseline.a2) } } := by
  simp [FC_IMU.update_sensors, FC_IMU.tw_call, Vec3.set, Vec3.get, sub16, cached_s16_eq,
    byteAt_lt]

theorem wrapS16_of_fits (n : Int) (lo : -32768 ≤ n) (hi : n ≤ 32767) : wrapS16 n = n := by
  unfold wrapS16
  omega

/-- C3 (as stated, refuted): with raw accelerometer x reading 32767 and
baseline -1 the cached value is -32768, not the integer 32767 - (-1) = 32768. -/
theorem update_sensors_difference_wraps :
    be16 (byteAt topReadingMachine.tw.next.buf 0) (byteAt topReadingMachine.tw.next.buf 1)
      = 32767 ∧
    topReadingMachine.imu._accel_baseline.a0 = -1 ∧
    (FC_IMU.update_sensors topReadingMachine).imu._accel_data.a0 = -32768 ∧
    (FC_IMU.update_sensors topReadingMachine).imu._accel_data.a0 ≠ 32767 - (-1) := by
  refine ⟨by decide, by decide, by decide, by decide⟩

/-- C3 (amended): for every raw reading `r` in the block and every baseline
`b`, the corrected value stored by `update_sensors` is `r - b` reduced modulo
`2 ^ 16` into `-32768..32767` (it wraps, it does not saturate), and it is
exactly `r - b` whenever that difference lies in `-32768..32767`. -/
theorem update_sensors_stores_wrapped_difference (m : Machine) (i : Nat) (hi : i < 3) :
    ((FC_IMU.update_sensors m).imu._accel_data.get i =
        wrapS16 (be16 (byteAt m.tw.next.buf (2 * i)) (byteAt m.tw.next.buf (2 * i + 1))
          - m.imu._accel_baseline.get i) ∧
      (FC_IMU.update_sensors m).imu._gyro_data.get i =
        wrapS16 (be16 (byteAt m.tw.next.buf (8 + 2 * i)) (byteAt m.tw.next.buf (8 + 2 * i + 1))
          - m.imu._gyro_baseline.get i)) ∧
    (-32768 ≤ be16 (byteAt m.tw.next.buf (2 * i)) (byteAt m.tw.next.buf (2 * i + 1))
          - m.imu._accel_baseline.get i →
      be16 (byteAt m.tw.next.buf (2 * i)) (byteAt m.tw.next.buf (2 * i + 1))
          - m.imu._accel_baseline.get i ≤ 32767 →
      (FC_IMU.update_sensors m).imu._accel_data.get i =
        be16 (byteAt m.tw.next.buf (2 * i)) (byteAt m.tw.next.buf (2 * i + 1))
          - m.imu._accel_baseline.get i) ∧
    (-32768 ≤ be16 (byteAt m.tw.next.buf (8 + 2 * i)) (byteAt m.tw.next.buf (8 + 2 * i + 1))
          - m.imu._gyro_baseline.get i →
      be16 (byteAt m.tw.next.buf (8 + 2 * i)) (byteAt m.tw.next.buf (8 + 2 * i + 1))
          - m.imu._gyro_baseline.get i ≤ 32767 →
      (FC_IMU.update_sensors m).imu._gyro_data.get i =
        be16 (byteAt m.tw.next.buf (8 + 2 * i)) (byteAt m.tw.next.buf (8 + 2 * i + 1))
          - m.imu._gyro_baseline.get i) := by
  rw [update_sensors_imu]
  interval_cases i
  · exact ⟨⟨rfl, rfl⟩, fun lo hi => wrapS16_of_fits _ lo hi, fun lo hi => wrapS16_of_fits _ lo hi⟩
  · exact ⟨⟨rfl, rfl⟩, fun lo hi => wrapS16_of_fits _ lo hi, fun lo hi => wrapS16_of_fits _ lo hi⟩
  · exact ⟨⟨rfl, rfl⟩, fun lo hi => wrapS16_of_fits _ lo hi, fun lo hi => wrapS16_of_fits _ lo hi⟩

theorem update_sensors_stores_wrapped_difference_witness :
    (1 < 3) ∧
    (FC_IMU.update_sensors
        (sampleMachine [0, 0, 0x01, 0x02, 0, 0, 0, 0, 0, 0, 0xff, 0xfe, 0, 0])).imu._accel_data.get 1
      = 458 ∧
    (FC_IMU.update_sensors
        (sampleMachine [0, 0, 0x01, 0x02, 0, 0, 0, 0, 0, 0, 0xff, 0xfe, 0, 0])).imu._gyro_data.get 1
      = -8 :=
  ⟨by decide,
   ((update_sensors_stores_wrapped_difference
      (sampleMachine [0, 0, 0x01, 0x02, 0, 0, 0, 0, 0, 0, 0xff, 0xfe, 0, 0]) 1
      (by decide)).2.1 (by decide) (by decide)).trans (by decide),
   ((update_sensors_stores_wrapped_difference
      (sampleMachine [0, 0, 0x01, 0x02, 0, 0, 0, 0, 0, 0, 0xff, 0xfe, 0, 0]) 1
      (by decide)).2.2 (by decide) (by decide)).trans (by decide)⟩

theorem byteAt_take (buf : List Nat) (n i : Nat) (h : i < n) :
    byteAt (buf.take n) i = byteAt buf i := by
  simp [byteAt, List.getD_eq_getElem?_getD, List.getElem?_take, h]

theorem byteAt_drop (buf : List Nat) (n i : Nat) :
    byteAt (buf.drop n) i = byteAt buf (n + i) := by
  simp [byteAt, List.getD_eq_getElem?_getD]

theorem accel_raw_data_of_ok (m : Machine) (data : Vec3 Int) (hok : m.tw.next.ok = true) :
    (FC_IMU.accel_raw m data).data =
      { a0 := be16 (byteAt m.tw.next.buf 0) (byteAt m.tw.next.buf 1),
        a1 := be16 (byteAt m.tw.next.buf 2) (byteAt m.tw.next.buf 3),
        a2 := be16 (byteAt m.tw.next.buf 4) (byteAt m.tw.next.buf 5) } := by
  simp [FC_IMU.accel_raw, hok, Vec3.set, assemble_u16_eq, byteAt_lt]

theorem gyro_raw_data_of_ok (m : Machine) (data : Vec3 Int) (hok : m.tw.next.ok = true) :
    (FC_IMU.gyro_raw m data).data =
      { a0 := be16 (byteAt m.tw.next.buf 0) (byteAt m.tw.next.buf 1),
        a1 := be16 (byteAt m.tw.next.buf 2) (byteAt m.tw.next.buf 3),
        a2 := be16 (byteAt m.tw.next.buf 4) (byteAt m.tw.next.buf 5) } := by
  simp [FC_IMU.gyro_raw, hok, Vec3.set, assemble_s16_eq, byteAt_lt]

/-- C4 (as stated, refuted): `gyro_raw` decodes the bytes `80 00` of the y
axis as -32768; with gyroscope baseline 1 the cached value is 32767, not
-32768 - 1. -/
theorem update_sensors_raw_minus_baseline_wraps :
    (FC_IMU.gyro_raw
        (machineOn (steadyBus true ((bottomReadingMachine.tw.next.buf.drop 8).take 6)))
        zero3).data.a1 = -32768 ∧
    bottomReadingMachine.imu._gyro_baseline.a1 = 1 ∧
    (FC_IMU.update_sensors bottomReadingMachine).imu._gyro_data.a1 = 32767 ∧
    (FC_IMU.update_sensors bottomReadingMachine).imu._gyro_data.a1 ≠ -32768 - 1 := by
  refine ⟨by decide, by decide, by decide, by decide⟩

/-- C4 (amended): `update_sensors` issues one 14-byte read at `ACCEL_XOUT_H`
and stores, as cached accelerometer axes, what `accel_raw` would decode from
bytes 0..5 less the accelerometer baseline, and as cached gyroscope axes what
`gyro_raw` would decode from bytes 8..13 less the gyroscope baseline, each
difference reduced modulo `2 ^ 16` into `-32768..32767`; bytes 6 and 7 have no
influence on the driver object. -/
theorem update_sensors_refines_raw_reads (m m' : Machine) (himu : m'.imu = m.imu)
    (hbytes : ∀ i, i ≠ 6 → i ≠ 7 → byteAt m'.tw.next.buf i = byteAt m.tw.next.buf i) :
    (FC_IMU.update_sensors m).tw.log =
      m.tw.log ++ [Call.read_bytes m.imu._i2c_address Register.ACCEL_XOUT_H 14] ∧
    ((FC_IMU.update_sensors m).imu._accel_data, (FC_IMU.update_sensors m).imu._gyro_data) =
      cached_sample_from_raw m ∧
    (FC_IMU.update_sensors m').imu = (FC_IMU.update_sensors m).imu := by
  refine ⟨?_, ?_, ?_⟩
  · simp [FC_IMU.update_sensors, FC_IMU.tw_call, TwoWire.issue]
  · have ha := accel_raw_data_of_ok (machineOn (steadyBus true (m.tw.next.buf.take 6))) zero3 rfl
    have hg := gyro_raw_data_of_ok
      (machineOn (steadyBus true ((m.tw.next.buf.drop 8).take 6))) zero3 rfl
    have ea : (machineOn (steadyBus true (m.tw.next.buf.take 6))).tw.next.buf
        = m.tw.next.buf.take 6 := rfl
    have eg : (machineOn (steadyBus true ((m.tw.next.buf.drop 8).take 6))).tw.next.buf
        = (m.tw.next.buf.drop 8).take 6 := rfl
    rw [ea] at ha
    rw [eg] at hg
    simp only [byteAt_take, byteAt_drop, Nat.lt_add_one, Nat.reduceLT, Nat.reduceAdd] at ha hg
    rw [update_sensors_imu]
    unfold cached_sample_from_raw
    simp only [ha, hg]
  · rw [update_sensors_imu, update_sensors_imu, himu]
    simp [hbytes]

theorem update_sensors_refines_raw_reads_witness :
    (sampleMachine [1, 2, 3, 4, 5, 6, 0xaa, 0xbb, 9, 10, 11, 12, 13, 14]).imu
      = (sampleMachine [1, 2, 3, 4, 5, 6, 0, 0, 9, 10, 11, 12, 13, 14]).imu ∧
    (FC_IMU.update_sensors
        (sampleMachine [1, 2, 3, 4, 5, 6, 0xaa, 0xbb, 9, 10, 11, 12, 13, 14])).imu
      = (FC_IMU.update_sensors
        (sampleMachine [1, 2, 3, 4, 5, 6, 0, 0, 9, 10, 11, 12, 13, 14])).imu :=
  ⟨rfl,
   (update_sensors_refines_raw_reads
      (sampleMachine [1, 2, 3, 4, 5, 6, 0, 0, 9, 10, 11, 12, 13, 14])
      (sampleMachine [1, 2, 3, 4, 5, 6, 0xaa, 0xbb, 9, 10, 11, 12, 13, 14]) rfl
      (by
        intro i h6 h7
        have h : i < 6 ∨ (8 ≤ i ∧ i < 14) ∨ 14 ≤ i := by omega
        rcases h with h | h | h
        · interval_cases i <;> rfl
        · obtain ⟨h1, h2⟩ := h
          interval_cases i <;> rfl
        · simp [byteAt, sampleMachine, machineWith, steadyBus, TwoWire.next,
            List.getD_eq_getElem?_getD, List.getElem?_eq_none, h])).2.2⟩

/-! ## Calibration (C2, C6) -/

/-- C2 (the code at the failing input): every one of the ten accelerometer
and gyroscope samples is `(0, 0, 0)`, yet with the never-initialised sum
`acc_tot[0]` starting at 10 the stored accelerometer baseline is `(1, 0, 0)`
instead of the mean `(0, 0, 0)`; were the sums to start at zero the baseline
would be the mean. -/
theorem set_baseline_keeps_leftover_sum :
    (FC_IMU.accel_raw restMachine zero3).data = zero3 ∧
    (FC_IMU.set_baseline leftoverSumLocals restMachine).imu._accel_baseline
      = { a0 := 1, a1 := 0, a2 := 0 } ∧
    (FC_IMU.set_baseline zeroLocals restMachine).imu._accel_baseline = zero3 := by
  refine ⟨by decide, by rfl, by rfl⟩

theorem wrapS32_wrapS32_add (x y : Int) : wrapS32 (wrapS32 x + y) = wrapS32 (x + y) := by
  unfold wrapS32
  omega

theorem accel_raw_m (m : Machine) (data : Vec3 Int) :
    (FC_IMU.accel_raw m data).m =
      { m with tw := m.tw.issue (Call.read_bytes m.imu._i2c_address Register.ACCEL_XOUT_H 6) } := by
  by_cases h : m.tw.next.ok = true <;> simp [FC_IMU.accel_raw, h]

theorem gyro_raw_m (m : Machine) (data : Vec3 Int) :
    (FC_IMU.gyro_raw m data).m =
      { m with tw := m.tw.issue (Call.read_bytes m.imu._i2c_address Register.GYRO_XOUT_H 6) } := by
  by_cases h : m.tw.next.ok = true <;> simp [FC_IMU.gyro_raw, h]

theorem accel_raw_data_of_fail (m : Machine) (data : Vec3 Int) (h : m.tw.next.ok = false) :
    (FC_IMU.accel_raw m data).data = data := by
  simp [FC_IMU.accel_raw, h]

theorem gyro_raw_data_of_fail (m : Machine) (data : Vec3 Int) (h : m.tw.next.ok = false) :
    (FC_IMU.gyro_raw m data).data = data := by
  simp [FC_IMU.gyro_raw, h]

theorem next_after_issue (tw : TwoWire) (c : Call) :
    (tw.issue c).next = tw.reply (tw.log.length + 1) := by
  simp [TwoWire.next, TwoWire.issue]

/-- The locals after one iteration, in terms of the two buffers it used. -/
theorem set_baseline_body_locals (l : FC_IMU.BaselineLocals) (m : Machine) :
    (FC_IMU.set_baseline_body l m).1 =
      { tmp_acc := (FC_IMU.accel_raw m l.tmp_acc).data,
        tmp_gyro := (FC_IMU.gyro_raw (FC_IMU.accel_raw m l.tmp_acc).m l.tmp_gyro).data,
        acc_tot := repeatedSum l.acc_tot (FC_IMU.accel_raw m l.tmp_acc).data 1,
        gyro_tot := repeatedSum l.gyro_tot
          (FC_IMU.gyro_raw (FC_IMU.accel_raw m l.tmp_acc).m l.tmp_gyro).data 1 } := by
  simp [FC_IMU.set_baseline_body, List.range, List.range.loop, FC_IMU.accumulate_axis,
    Vec3.set, Vec3.get, repeatedSum]

/-- The machine after one iteration: three more calls in the log, nothing else changed. -/
theorem set_baseline_body_machine (l : FC_IMU.BaselineLocals) (m : Machine) :
    (FC_IMU.set_baseline_body l m).2 =
      { m with tw := { m.tw with log := m.tw.log ++
          [Call.read_bytes m.imu._i2c_address Register.ACCEL_XOUT_H 6,
           Call.read_bytes m.imu._i2c_address Register.GYRO_XOUT_H 6,
           Call.delay 100] } } := by
  simp [FC_IMU.set_baseline_body, accel_raw_m, gyro_raw_m, FC_IMU.tw_call, TwoWire.issue]

theorem repeatedSum_step (a t : Vec3 Int) (i : Nat) :
    repeatedSum (repeatedSum a t 1) t i = repeatedSum a t (i + 1) := by
  simp only [repeatedSum, wrapS32_wrapS32_add]
  have e : ∀ x y : Int, x + ((1 : Nat) : Int) * y + (i : Int) * y = x + ((i + 1 : Nat) : Int) * y := by
    intro x y
    push_cast
    ring
  simp only [e]

/-- The sampling loop on a bus where every call fails: the buffers keep
their contents and are added once per iteration. -/
theorem set_baseline_loop_of_failed_reads (i : Nat) :
    ∀ (l : FC_IMU.BaselineLocals) (m : Machine), (∀ k, (m.tw.reply k).ok = false) →
      (FC_IMU.set_baseline_loop i l m).1 =
        (if i = 0 then l else
          { l with acc_tot := repeatedSum l.acc_tot l.tmp_acc i,
                   gyro_tot := repeatedSum l.gyro_tot l.tmp_gyro i }) ∧
      (FC_IMU.set_baseline_loop i l m).2.imu = m.imu := by
  induction i with
  | zero =>
    intro l m _
    exact ⟨rfl, rfl⟩
  | succ i ih =>
    intro l m hdead
    have h1 : m.tw.next.ok = false := hdead _
    have h2 : (FC_IMU.accel_raw m l.tmp_acc).m.tw.next.ok = false := by
      rw [accel_raw_m]
      exact hdead _
    have hl := set_baseline_body_locals l m
    rw [gyro_raw_data_of_fail _ _ h2, accel_raw_data_of_fail _ _ h1] at hl
    have hm := set_baseline_body_machine l m
    have hdead' : ∀ k, ((FC_IMU.set_baseline_body l m).2.tw.reply k).ok = false := by
      intro k
      rw [hm]
      exact hdead k
    have key := ih (FC_IMU.set_baseline_body l m).1 (FC_IMU.set_baseline_body l m).2 hdead'
    have eloop : FC_IMU.set_baseline_loop (i + 1) l m =
        FC_IMU.set_baseline_loop i (FC_IMU.set_baseline_body l m).1
          (FC_IMU.set_baseline_body l m).2 := rfl
    rw [eloop]
    refine ⟨?_, ?_⟩
    · rw [key.1, hl]
      by_cases hi : i = 0
      · subst hi
        simp
      · simp [hi, repeatedSum_step]
    · rw [key.2, hm]

/-- The driver object after `set_baseline`, in terms of the sums the loop leaves. -/
theorem set_baseline_imu (l : FC_IMU.BaselineLocals) (m : Machine) :
    (FC_IMU.set_baseline l m).imu =
      { (FC_IMU.set_baseline_loop 10 l m).2.imu with
        _accel_baseline :=
          { a0 := wrapS16 (Int.tdiv (FC_IMU.set_baseline_loop 10 l m).1.acc_tot.a0 10),
            a1 := wrapS16 (Int.tdiv (FC_IMU.set_baseline_loop 10 l m).1.acc_tot.a1 10),
            a2 := wrapS16 (Int.tdiv (FC_IMU.set_baseline_loop 10 l m).1.acc_tot.a2 10) },
        _gyro_baseline :=
          { a0 := wrapS16 (Int.tdiv (FC_IMU.set_baseline_loop 10 l m).1.gyro_tot.a0 10),
            a1 := wrapS16 (Int.tdiv (FC_IMU.set_baseline_loop 10 l m).1.gyro_tot.a1 10),
            a2 := wrapS16 (Int.tdiv (FC_IMU.set_baseline_loop 10 l m).1.gyro_tot.a2 10) } } := by
  simp [FC_IMU.set_baseline, List.range, List.range.loop, FC_IMU.store_baseline, Vec3.set,
    Vec3.get]

/-- The rates written by `gyro_rate`, in terms of the buffer `gyro_raw` leaves. -/
theorem gyro_rate_data {F : Type} (A : FC_IMU.FloatOps F) (S : F) (tmp : Vec3 Int)
    (m : Machine) (data : Vec3 F) :
    (FC_IMU.gyro_rate A S tmp m data).data =
      { a0 := A.div (A.ofInt (FC_IMU.gyro_raw m tmp).data.a0) S,
        a1 := A.mul (A.sub (A.div (A.ofInt (FC_IMU.gyro_raw m tmp).data.a1) S) A.lit_2_5)
                A.lit_neg_1,
        a2 := A.div (A.ofInt (FC_IMU.gyro_raw m tmp).data.a2) S } := by
  simp [FC_IMU.gyro_rate, List.range, List.range.loop, FC_IMU.gyro_rate_axis, Vec3.set,
    Vec3.get]

/-- C6 (as stated, refuted): on a bus where every read fails, the baseline
stored by `set_baseline` follows the leftover content of the sample buffer
(`(7, 0, 0)` gives baseline `(7, 0, 0)`, zeros give zeros, the sums starting
at zero in both runs), and `gyro_rate` turns the leftover buffer content 131
into the rate 1. -/
theorem failed_reads_reach_the_results :
    (FC_IMU.accel_raw deadMachine leftoverBufferLocals.tmp_acc).ret = false ∧
    (FC_IMU.gyro_raw deadMachine leftoverReading).ret = false ∧
    (FC_IMU.set_baseline leftoverBufferLocals deadMachine).imu._accel_baseline
      = { a0 := 7, a1 := 0, a2 := 0 } ∧
    (FC_IMU.set_baseline zeroLocals deadMachine).imu._accel_baseline = zero3 ∧
    (FC_IMU.gyro_rate FC_IMU.exactOps 131 leftoverReading deadMachine
        { a0 := 0, a1 := 0, a2 := 0 }).data.a0 = 1 ∧
    (FC_IMU.gyro_rate FC_IMU.exactOps 131 zero3 deadMachine
        { a0 := 0, a1 := 0, a2 := 0 }).data.a0 = 0 := by
  refine ⟨by decide, by decide, by rfl, by rfl, ?_, ?_⟩
  · rw [gyro_rate_data, gyro_raw_data_of_fail _ _ (by rfl)]
    norm_num [FC_IMU.exactOps, leftoverReading]
  · rw [gyro_rate_data, gyro_raw_data_of_fail _ _ (by rfl)]
    norm_num [FC_IMU.exactOps, zero3]

/-- C6 (amended): the callers do not look at the result of a raw read.  When
the reads fail, `accel_raw` and `gyro_raw` leave the buffer as it was and the
callers go on to use it: over the ten iterations `set_baseline` adds the
buffer's previous content ten times to each sum (modulo `2 ^ 32`) and divides
by ten, and `gyro_rate` converts the buffer's previous content. -/
theorem failed_reads_leave_buffer_in_use {F : Type} (A : FC_IMU.FloatOps F) (S : F)
    (l : FC_IMU.BaselineLocals) (tmp : Vec3 Int) (m : Machine) (data : Vec3 F)
    (hdead : ∀ k, (m.tw.reply k).ok = false) :
    (FC_IMU.set_baseline l m).imu._accel_baseline =
      { a0 := wrapS16 (Int.tdiv (wrapS32 (l.acc_tot.a0 + 10 * l.tmp_acc.a0)) 10),
        a1 := wrapS16 (Int.tdiv (wrapS32 (l.acc_tot.a1 + 10 * l.tmp_acc.a1)) 10),
        a2 := wrapS16 (Int.tdiv (wrapS32 (l.acc_tot.a2 + 10 * l.tmp_acc.a2)) 10) } ∧
    (FC_IMU.set_baseline l m).imu._gyro_baseline =
      { a0 := wrapS16 (Int.tdiv (wrapS32 (l.gyro_tot.a0 + 10 * l.tmp_gyro.a0)) 10),
        a1 := wrapS16 (Int.tdiv (wrapS32 (l.gyro_tot.a1 + 10 * l.tmp_gyro.a1)) 10),
        a2 := wrapS16 (Int.tdiv (wrapS32 (l.gyro_tot.a2 + 10 * l.tmp_gyro.a2)) 10) } ∧
    (FC_IMU.gyro_rate A S tmp m data).data =
      { a0 := A.div (A.ofInt tmp.a0) S,
        a1 := A.mul (A.sub (A.div (A.ofInt tmp.a1) S) A.lit_2_5) A.lit_neg_1,
        a2 := A.div (A.ofInt tmp.a2) S } := by
  have hloop := (set_baseline_loop_of_failed_reads 10 l m hdead).1
  refine ⟨?_, ?_, ?_⟩
  · rw [set_baseline_imu, hloop]
    simp [repeatedSum]
  · rw [set_baseline_imu, hloop]
    simp [repeatedSum]
  · rw [gyro_rate_data, gyro_raw_data_of_fail _ _ (hdead _)]

theorem failed_reads_leave_buffer_in_use_witness :
    (∀ k, (deadMachine.tw.reply k).ok = false) ∧
    (FC_IMU.set_baseline leftoverBufferLocals deadMachine).imu._accel_baseline =
      { a0 := wrapS16 (Int.tdiv (wrapS32 (0 + 10 * 7)) 10),
        a1 := wrapS16 (Int.tdiv (wrapS32 (0 + 10 * 0)) 10),
        a2 := wrapS16 (Int.tdiv (wrapS32 (0 + 10 * 0)) 10) } :=
  ⟨fun _ => rfl,
   (failed_reads_leave_buffer_in_use FC_IMU.exactOps 131 leftoverBufferLocals zero3
      deadMachine { a0 := 0, a1 := 0, a2 := 0 } (fun _ => rfl)).1⟩

/-! ## Conversion to physical units (C8, C9, C10) -/

/-- C8: for a successfully read raw gyroscope sample `(x, y, z)` and scale
factor `S`, `gyro_rate` writes `x / S` to axis 0, `(y / S - 2.5) * -1` to
axis 1 and `z / S` to axis 2, in whatever arithmetic interprets `float`; in
exact arithmetic these are `x / S`, `-(y / S - 2.5)` and `z / S`.  Only axis 1
gets the bias subtraction and the sign inversion. -/
theorem gyro_rate_scales_and_flips_pitch {F : Type} (A : FC_IMU.FloatOps F) (S : F) (Q : ℚ)
    (tmp : Vec3 Int) (m : Machine) (data : Vec3 F) (dataQ : Vec3 ℚ)
    (hok : m.tw.next.ok = true) :
    (FC_IMU.gyro_rate A S tmp m data).data =
      { a0 := A.div (A.ofInt (be16 (byteAt m.tw.next.buf 0) (byteAt m.tw.next.buf 1))) S,
        a1 := A.mul (A.sub
                (A.div (A.ofInt (be16 (byteAt m.tw.next.buf 2) (byteAt m.tw.next.buf 3))) S)
                A.lit_2_5) A.lit_neg_1,
        a2 := A.div (A.ofInt (be16 (byteAt m.tw.next.buf 4) (byteAt m.tw.next.buf 5))) S } ∧
    (FC_IMU.gyro_rate FC_IMU.exactOps Q tmp m dataQ).data =
      { a0 := (be16 (byteAt m.tw.next.buf 0) (byteAt m.tw.next.buf 1) : ℚ) / Q,
        a1 := -((be16 (byteAt m.tw.next.buf 2) (byteAt m.tw.next.buf 3) : ℚ) / Q - 5 / 2),
        a2 := (be16 (byteAt m.tw.next.buf 4) (byteAt m.tw.next.buf 5) : ℚ) / Q } := by
  refine ⟨?_, ?_⟩
  · rw [gyro_rate_data, gyro_raw_data_of_ok _ _ hok]
  · rw [gyro_rate_data, gyro_raw_data_of_ok _ _ hok]
    simp [FC_IMU.exactOps]

theorem gyro_rate_scales_and_flips_pitch_witness :
    (turningMachine zero3).tw.next.ok = true ∧
    (FC_IMU.gyro_rate FC_IMU.exactOps 131 zero3 (turningMachine zero3)
        { a0 := 0, a1 := 0, a2 := 0 }).data = { a0 := 1, a1 := 5 / 2, a2 := 1 } :=
  ⟨rfl,
   ((gyro_rate_scales_and_flips_pitch FC_IMU.exactOps 131 131 zero3 (turningMachine zero3)
      { a0 := 0, a1 := 0, a2 := 0 } { a0 := 0, a1 := 0, a2 := 0 } rfl).2).trans
    (by
      have e0 : be16 (byteAt (turningMachine zero3).tw.next.buf 0)
          (byteAt (turningMachine zero3).tw.next.buf 1) = 131 := by decide
      have e1 : be16 (byteAt (turningMachine zero3).tw.next.buf 2)
          (byteAt (turningMachine zero3).tw.next.buf 3) = 0 := by decide
      have e2 : be16 (byteAt (turningMachine zero3).tw.next.buf 4)
          (byteAt (turningMachine zero3).tw.next.buf 5) = 131 := by decide
      rw [e0, e1, e2]
      norm_num)⟩

theorem gyro_raw_data_any_baseline (m : Machine) (b tmp : Vec3 Int) :
    (FC_IMU.gyro_raw { m with imu := { m.imu with _gyro_baseline := b } } tmp).data =
      (FC_IMU.gyro_raw m tmp).data := by
  by_cases h : m.tw.next.ok = true
  · have h' : ({ m with imu := { m.imu with _gyro_baseline := b } } : Machine).tw.next.ok
        = true := h
    rw [gyro_raw_data_of_ok _ _ h, gyro_raw_data_of_ok _ _ h']
  · have hf : m.tw.next.ok = false := by simpa using h
    have h' : ({ m with imu := { m.imu with _gyro_baseline := b } } : Machine).tw.next.ok
        = false := hf
    rw [gyro_raw_data_of_fail _ _ hf, gyro_raw_data_of_fail _ _ h']

/-- C10 (as stated, refuted): with gyroscope baseline `(131, 0, 131)` and a
raw reading equal to it, `gyro_rate` yields the rate 1 on axes 0 and 2, not
`(131 - 131) / 131 = 0`. -/
theorem gyro_rate_of_baseline_reading_is_not_zero :
    (turningMachine turningBaseline).imu._gyro_baseline = turningBaseline ∧
    (FC_IMU.gyro_raw (turningMachine turningBaseline) zero3).data = turningBaseline ∧
    (FC_IMU.gyro_rate FC_IMU.exactOps 131 zero3 (turningMachine turningBaseline)
        { a0 := 0, a1 := 0, a2 := 0 }).data.a0 = 1 ∧
    (FC_IMU.gyro_rate FC_IMU.exactOps 131 zero3 (turningMachine turningBaseline)
        { a0 := 0, a1 := 0, a2 := 0 }).data.a2 = 1 ∧
    (FC_IMU.gyro_rate FC_IMU.exactOps 131 zero3 (turningMachine turningBaseline)
        { a0 := 0, a1 := 0, a2 := 0 }).data.a0 ≠ (((131 : Int) - 131 : Int) : ℚ) / 131 := by
  have hraw : (FC_IMU.gyro_raw (turningMachine turningBaseline) zero3).data = turningBaseline := by
    decide
  refine ⟨rfl, hraw, ?_, ?_, ?_⟩
  · rw [gyro_rate_data, hraw]
    norm_num [FC_IMU.exactOps, turningBaseline]
  · rw [gyro_rate_data, hraw]
    norm_num [FC_IMU.exactOps, turningBaseline]
  · rw [gyro_rate_data, hraw]
    norm_num [FC_IMU.exactOps, turningBaseline]

/-- C10 (amended): the angular rates returned by `gyro_rate` are computed
from the raw gyroscope sample that `gyro_raw` reads, not from a
baseline-corrected one: whatever the gyroscope baseline `b`, the result is the
same, and for a successfully read raw reading `r` the unbiased axes 0 and 2
equal `r / S`. -/
theorem gyro_rate_uses_uncorrected_sample {F : Type} (A : FC_IMU.FloatOps F) (S : F)
    (tmp : Vec3 Int) (m : Machine) (data : Vec3 F) (b : Vec3 Int)
    (hok : m.tw.next.ok = true) :
    (FC_IMU.gyro_rate A S tmp { m with imu := { m.imu with _gyro_baseline := b } } data).data =
      (FC_IMU.gyro_rate A S tmp m data).data ∧
    (FC_IMU.gyro_rate A S tmp { m with imu := { m.imu with _gyro_baseline := b } } data).data.a0 =
      A.div (A.ofInt (be16 (byteAt m.tw.next.buf 0) (byteAt m.tw.next.buf 1))) S ∧
    (FC_IMU.gyro_rate A S tmp { m with imu := { m.imu with _gyro_baseline := b } } data).data.a2 =
      A.div (A.ofInt (be16 (byteAt m.tw.next.buf 4) (byteAt m.tw.next.buf 5))) S := by
  have e : (FC_IMU.gyro_rate A S tmp { m with imu := { m.imu with _gyro_baseline := b } }
      data).data = (FC_IMU.gyro_rate A S tmp m data).data := by
    rw [gyro_rate_data, gyro_rate_data, gyro_raw_data_any_baseline]
  refine ⟨e, ?_, ?_⟩
  · rw [e, gyro_rate_data, gyro_raw_data_of_ok _ _ hok]
  · rw [e, gyro_rate_data, gyro_raw_data_of_ok _ _ hok]

theorem gyro_rate_uses_uncorrected_sample_witness :
    (turningMachine zero3).tw.next.ok = true ∧
    (FC_IMU.gyro_rate FC_IMU.exactOps 131 zero3
        { turningMachine zero3 with
          imu := { (turningMachine zero3).imu with _gyro_baseline := turningBaseline } }
        { a0 := 0, a1 := 0, a2 := 0 }).data =
      (FC_IMU.gyro_rate FC_IMU.exactOps 131 zero3 (turningMachine zero3)
        { a0 := 0, a1 := 0, a2 := 0 }).data :=
  ⟨rfl,
   (gyro_rate_uses_uncorrected_sample FC_IMU.exactOps 131 zero3 (turningMachine zero3)
      { a0 := 0, a1 := 0, a2 := 0 } turningBaseline rfl).1⟩

/-- The angles written by `accel_angle`, in closed form. -/
theorem accel_angle_data {F : Type} (A : FC_IMU.FloatOps F) (atan2 : F → F → F) (deg L : F)
    (tmp_data : Vec3 Int) (tmp_angle : Vec3 F) (m : Machine) (data : Vec3 F) :
    (FC_IMU.accel_angle A atan2 deg L tmp_data tmp_angle m data).data =
      { a0 := A.mul (atan2 (A.div (A.ofInt tmp_data.a1) L) (A.div (A.ofInt tmp_data.a2) L)) deg,
        a1 := A.mul (atan2 (A.div (A.ofInt tmp_data.a0) L) (A.div (A.ofInt tmp_data.a2) L)) deg,
        a2 := A.mul (atan2 (A.div (A.ofInt tmp_data.a0) L) (A.div (A.ofInt tmp_data.a1) L)) deg } := by
  simp [FC_IMU.accel_angle, List.range, List.range.loop, Vec3.set, Vec3.get]

/-- C9 (as stated, refuted): after `gyro_set_range(1)`, with the scale
factors 131 for selector 0 and 65.5 for selector 1, the raw count 131 is
reported as the rate 1 (131 / 131), not as 131 / 65.5 = 2. -/
theorem gyro_rate_after_range_one_divides_by_range_zero_scale :
    (FC_IMU.gyro_set_range (turningMachine zero3) 1).m.imu._gyro_fs_sel = 1 ∧
    (FC_IMU.gyro_raw (FC_IMU.gyro_set_range (turningMachine zero3) 1).m zero3).data.a0 = 131 ∧
    (FC_IMU.gyro_rate FC_IMU.exactOps (exampleGyroLsb 0) zero3
        (FC_IMU.gyro_set_range (turningMachine zero3) 1).m
        { a0 := 0, a1 := 0, a2 := 0 }).data.a0 = 1 ∧
    (FC_IMU.gyro_rate FC_IMU.exactOps (exampleGyroLsb 0) zero3
        (FC_IMU.gyro_set_range (turningMachine zero3) 1).m
        { a0 := 0, a1 := 0, a2 := 0 }).data.a0 ≠ (131 : ℚ) / exampleGyroLsb 1 := by
  have hraw : (FC_IMU.gyro_raw (FC_IMU.gyro_set_range (turningMachine zero3) 1).m zero3).data
      = { a0 := 131, a1 := 0, a2 := 131 } := by decide
  refine ⟨rfl, by rw [hraw], ?_, ?_⟩
  · rw [gyro_rate_data, hraw]
    norm_num [FC_IMU.exactOps, exampleGyroLsb]
  · rw [gyro_rate_data, hraw]
    norm_num [FC_IMU.exactOps, exampleGyroLsb]

/-- C9 (amended): the conversions use a fixed scale factor, that of
selector 0.  For every selector `s` and every table of scale factors, after
`gyro_set_range(s)` the rates of `gyro_rate` are the raw counts divided by
`GYRO_LSB_0`, the entry of selector 0, and after `accel_set_range(s)`
`accel_angle` divides by `ACCEL_LSB_0`, the entry of selector 0; the
selector `s` is stored and written to the device but does not enter the
conversion. -/
theorem conversions_divide_by_range_zero_scale {F : Type} (A : FC_IMU.FloatOps F)
    (gyroLsb accelLsb : Nat → F) (atan2 : F → F → F) (deg : F) (s : Nat)
    (tmp tmp_data : Vec3 Int) (tmp_angle : Vec3 F) (m : Machine) (data : Vec3 F) :
    ((FC_IMU.gyro_set_range m s).m.imu._gyro_fs_sel = s ∧
      (FC_IMU.accel_set_range m s).m.imu._accel_fs_sel = s) ∧
    (FC_IMU.gyro_rate A (gyroLsb 0) tmp (FC_IMU.gyro_set_range m s).m data).data =
      { a0 := A.div (A.ofInt (FC_IMU.gyro_raw (FC_IMU.gyro_set_range m s).m tmp).data.a0)
                (gyroLsb 0),
        a1 := A.mul (A.sub
                (A.div (A.ofInt (FC_IMU.gyro_raw (FC_IMU.gyro_set_range m s).m tmp).data.a1)
                  (gyroLsb 0))
                A.lit_2_5) A.lit_neg_1,
        a2 := A.div (A.ofInt (FC_IMU.gyro_raw (FC_IMU.gyro_set_range m s).m tmp).data.a2)
                (gyroLsb 0) } ∧
    (FC_IMU.accel_angle A atan2 deg (accelLsb 0) tmp_data tmp_angle
        (FC_IMU.accel_set_range m s).m data).data =
      { a0 := A.mul (atan2 (A.div (A.ofInt tmp_data.a1) (accelLsb 0))
                (A.div (A.ofInt tmp_data.a2) (accelLsb 0))) deg,
        a1 := A.mul (atan2 (A.div (A.ofInt tmp_data.a0) (accelLsb 0))
                (A.div (A.ofInt tmp_data.a2) (accelLsb 0))) deg,
        a2 := A.mul (atan2 (A.div (A.ofInt tmp_data.a0) (accelLsb 0))
                (A.div (A.ofInt tmp_data.a1) (accelLsb 0))) deg } := by
  refine ⟨⟨rfl, rfl⟩, ?_, ?_⟩
  · rw [gyro_rate_data]
  · rw [accel_angle_data]

/-! ## Start-up (C7) -/

theorem SameFromNow.next_eq {m1 m2 : Machine} (h : SameFromNow m1 m2) :
    m1.tw.next = m2.tw.next := by
  obtain ⟨_, _, _, hlog, hr⟩ := h
  unfold TwoWire.next
  rw [← hlog]
  exact hr _ (Nat.le_refl _)

theorem SameFromNow.issue {m1 m2 : Machine} (h : SameFromNow m1 m2) (c1 c2 : Call)
    (hc : c1 = c2) :
    SameFromNow { m1 with tw := m1.tw.issue c1 } { m2 with tw := m2.tw.issue c2 } := by
  obtain ⟨himu, hflag, htimsk, hlog, hr⟩ := h
  subst hc
  refine ⟨himu, hflag, htimsk, ?_, ?_⟩
  · simp [TwoWire.issue, hlog]
  · intro k hk
    simp only [TwoWire.issue, List.length_append, List.length_singleton] at hk ⊢
    exact hr k (by omega)

theorem accel_raw_same {m1 m2 : Machine} (h : SameFromNow m1 m2) (data : Vec3 Int) :
    (FC_IMU.accel_raw m1 data).data = (FC_IMU.accel_raw m2 data).data ∧
    SameFromNow (FC_IMU.accel_raw m1 data).m (FC_IMU.accel_raw m2 data).m := by
  refine ⟨?_, ?_⟩
  · by_cases hok : m2.tw.next.ok = true <;> simp [FC_IMU.accel_raw, h.next_eq, hok]
  · rw [accel_raw_m, accel_raw_m]
    exact h.issue _ _ (by rw [h.1])

theorem gyro_raw_same {m1 m2 : Machine} (h : SameFromNow m1 m2) (data : Vec3 Int) :
    (FC_IMU.gyro_raw m1 data).data = (FC_IMU.gyro_raw m2 data).data ∧
    SameFromNow (FC_IMU.gyro_raw m1 data).m (FC_IMU.gyro_raw m2 data).m := by
  refine ⟨?_, ?_⟩
  · by_cases hok : m2.tw.next.ok = true <;> simp [FC_IMU.gyro_raw, h.next_eq, hok]
  · rw [gyro_raw_m, gyro_raw_m]
    exact h.issue _ _ (by rw [h.1])

theorem set_baseline_body_same {m1 m2 : Machine} (h : SameFromNow m1 m2)
    (l : FC_IMU.BaselineLocals) :
    (FC_IMU.set_baseline_body l m1).1 = (FC_IMU.set_baseline_body l m2).1 ∧
    SameFromNow (FC_IMU.set_baseline_body l m1).2 (FC_IMU.set_baseline_body l m2).2 := by
  have ha := accel_raw_same h l.tmp_acc
  have hg := gyro_raw_same ha.2 l.tmp_gyro
  refine ⟨?_, ?_⟩
  · rw [set_baseline_body_locals, set_baseline_body_locals, ha.1, hg.1]
  · have e : ∀ m : Machine, (FC_IMU.set_baseline_body l m).2 =
        { (FC_IMU.gyro_raw (FC_IMU.accel_raw m l.tmp_acc).m l.tmp_gyro).m with
          tw := (FC_IMU.gyro_raw (FC_IMU.accel_raw m l.tmp_acc).m l.tmp_gyro).m.tw.issue
            (Call.delay 100) } := fun _ => rfl
    rw [e, e]
    exact hg.2.issue _ _ rfl

theorem set_baseline_loop_same (i : Nat) :
    ∀ (l : FC_IMU.BaselineLocals) (m1 m2 : Machine), SameFromNow m1 m2 →
      (FC_IMU.set_baseline_loop i l m1).1 = (FC_IMU.set_baseline_loop i l m2).1 ∧
      SameFromNow (FC_IMU.set_baseline_loop i l m1).2 (FC_IMU.set_baseline_loop i l m2).2 := by
  induction i with
  | zero =>
    intro l m1 m2 h
    exact ⟨rfl, h⟩
  | succ i ih =>
    intro l m1 m2 h
    have hb := set_baseline_body_same h l
    have e : ∀ m : Machine, FC_IMU.set_baseline_loop (i + 1) l m =
        FC_IMU.set_baseline_loop i (FC_IMU.set_baseline_body l m).1
          (FC_IMU.set_baseline_body l m).2 := fun _ => rfl
    rw [e, e, hb.1]
    exact ih _ _ _ hb.2

theorem set_baseline_same {m1 m2 : Machine} (h : SameFromNow m1 m2)
    (l : FC_IMU.BaselineLocals) :
    SameFromNow (FC_IMU.set_baseline l m1) (FC_IMU.set_baseline l m2) := by
  have hl := set_baseline_loop_same 10 l m1 m2 h
  obtain ⟨_, hflag, htimsk, hlog, hr⟩ := hl.2
  refine ⟨?_, hflag, htimsk, hlog, hr⟩
  rw [set_baseline_imu, set_baseline_imu, hl.1, hl.2.1]

theorem update_sensors_same {m1 m2 : Machine} (h : SameFromNow m1 m2) :
    SameFromNow (FC_IMU.update_sensors m1) (FC_IMU.update_sensors m2) := by
  have e : ∀ m : Machine, FC_IMU.update_sensors m =
      { m with imu := (FC_IMU.update_sensors m).imu,
               tw := m.tw.issue (Call.read_bytes m.imu._i2c_address Register.ACCEL_XOUT_H 14) } :=
    fun _ => rfl
  have hi := h.issue (Call.read_bytes m1.imu._i2c_address Register.ACCEL_XOUT_H 14)
    (Call.read_bytes m2.imu._i2c_address Register.ACCEL_XOUT_H 14) (by rw [h.1])
  obtain ⟨_, hflag, htimsk, hlog, hr⟩ := hi
  rw [e m1, e m2]
  refine ⟨?_, hflag, htimsk, hlog, hr⟩
  show (FC_IMU.update_sensors m1).imu = (FC_IMU.update_sensors m2).imu
  rw [update_sensors_imu, update_sensors_imu, h.1, h.next_eq]

theorem write_TIMSK2_same {m1 m2 : Machine} (h : SameFromNow m1 m2) (v1 v2 : Nat)
    (hv : v1 = v2) : SameFromNow (m1.write_TIMSK2 v1) (m2.write_TIMSK2 v2) := by
  subst hv
  obtain ⟨himu, hflag, _, hlog, hr⟩ := h.issue (Call.write_TIMSK2 v1) (Call.write_TIMSK2 v1) rfl
  exact ⟨himu, hflag, rfl, hlog, hr⟩

/-- The machine once `init` has issued its four configuration writes: the
two selectors are stored, four calls are logged, and no reply has been used. -/
theorem config_writes_machine (m : Machine) :
    (FC_IMU.set_sleep (FC_IMU.accel_set_range (FC_IMU.gyro_set_range
        (FC_IMU.set_clock_source m 1).m 0).m 0).m false).m =
      { m with
        imu := { m.imu with _gyro_fs_sel := 0, _accel_fs_sel := 0 },
        tw := { m.tw with log := m.tw.log ++
          [Call.write_bits m.imu._i2c_address Register.PWR_MGMT_1 2 3 1,
           Call.write_bits m.imu._i2c_address Register.GYRO_CONFIG 4 2 0,
           Call.write_bits m.imu._i2c_address Register.ACCEL_CONFIG 4 2 0,
           Call.write_bit m.imu._i2c_address Register.PWR_MGMT_1 6 0] } } := by
  simp [FC_IMU.set_sleep, FC_IMU.accel_set_range, FC_IMU.gyro_set_range,
    FC_IMU.set_clock_source, FC_IMU.tw_call, TwoWire.issue]

/-- C7 (as stated, refuted): on a bus where all four configuration writes
report failure, `init` leaves the driver object, the interrupt flag, the
timer mask and the log of calls exactly as on a bus where they all succeed. -/
theorem init_failed_writes_leave_no_trace :
    (FC_IMU.set_clock_source (machineOn refusingBus) 1).ret = false ∧
    (FC_IMU.set_clock_source (machineOn willingBus) 1).ret = true ∧
    (FC_IMU.init 0 zeroLocals (machineOn refusingBus)).imu =
      (FC_IMU.init 0 zeroLocals (machineOn willingBus)).imu ∧
    (FC_IMU.init 0 zeroLocals (machineOn refusingBus)).sensor_update_int =
      (FC_IMU.init 0 zeroLocals (machineOn willingBus)).sensor_update_int ∧
    (FC_IMU.init 0 zeroLocals (machineOn refusingBus)).TIMSK2 =
      (FC_IMU.init 0 zeroLocals (machineOn willingBus)).TIMSK2 ∧
    (FC_IMU.init 0 zeroLocals (machineOn refusingBus)).tw.log =
      (FC_IMU.init 0 zeroLocals (machineOn willingBus)).tw.log := by
  refine ⟨by decide, by decide, by decide!, by decide!, by decide!, by decide!⟩

/-- C7 (amended): `init` checks none of its bus writes.  It issues the
clock-source, gyroscope-range, accelerometer-range and sleep-bit writes and
carries on whatever they report: two runs that differ only in the replies to
those four writes end with the same driver object, interrupt flag, timer mask
and log of calls, so no error state is recorded. -/
theorem init_ignores_write_results (TOIE2 : Nat) (l : FC_IMU.BaselineLocals)
    (m1 m2 : Machine) (himu : m1.imu = m2.imu)
    (hflag : m1.sensor_update_int = m2.sensor_update_int) (htimsk : m1.TIMSK2 = m2.TIMSK2)
    (hlog : m1.tw.log = m2.tw.log)
    (hlater : ∀ k, m1.tw.log.length + 4 ≤ k → m1.tw.reply k = m2.tw.reply k) :
    (FC_IMU.init TOIE2 l m1).imu = (FC_IMU.init TOIE2 l m2).imu ∧
    (FC_IMU.init TOIE2 l m1).sensor_update_int = (FC_IMU.init TOIE2 l m2).sensor_update_int ∧
    (FC_IMU.init TOIE2 l m1).TIMSK2 = (FC_IMU.init TOIE2 l m2).TIMSK2 ∧
    (FC_IMU.init TOIE2 l m1).tw.log = (FC_IMU.init TOIE2 l m2).tw.log := by
  have hw : SameFromNow
      (FC_IMU.set_sleep (FC_IMU.accel_set_range (FC_IMU.gyro_set_range
        (FC_IMU.set_clock_source m1 1).m 0).m 0).m false).m
      (FC_IMU.set_sleep (FC_IMU.accel_set_range (FC_IMU.gyro_set_range
        (FC_IMU.set_clock_source m2 1).m 0).m 0).m false).m := by
    rw [config_writes_machine, config_writes_machine]
    refine ⟨by simp [himu], hflag, htimsk, by simp [himu, hlog], ?_⟩
    intro k hk
    simp only [List.length_append, List.length_cons, List.length_nil] at hk
    exact hlater k (by omega)
  have hb := set_baseline_same hw l
  have ht := write_TIMSK2_same hb
    (((FC_IMU.set_baseline l (FC_IMU.set_sleep (FC_IMU.accel_set_range (FC_IMU.gyro_set_range
      (FC_IMU.set_clock_source m1 1).m 0).m 0).m false).m).TIMSK2 ||| (1 <<< TOIE2)) % 256)
    (((FC_IMU.set_baseline l (FC_IMU.set_sleep (FC_IMU.accel_set_range (FC_IMU.gyro_set_range
      (FC_IMU.set_clock_source m2 1).m 0).m 0).m false).m).TIMSK2 ||| (1 <<< TOIE2)) % 256)
    (by rw [hb.2.2.1])
  have hu := update_sensors_same ht
  exact ⟨hu.1, hu.2.1, hu.2.2.1, hu.2.2.2.1⟩

theorem init_ignores_write_results_witness :
    (machineOn refusingBus).imu = (machineOn willingBus).imu ∧
    (∀ k, (machineOn refusingBus).tw.log.length + 4 ≤ k →
      (machineOn refusingBus).tw.reply k = (machineOn willingBus).tw.reply k) ∧
    (FC_IMU.init 0 zeroLocals (machineOn refusingBus)).imu =
      (FC_IMU.init 0 zeroLocals (machineOn willingBus)).imu :=
  ⟨rfl,
   fun k hk => by
     have h4 : ¬ k < 4 := by
       simp [machineOn, refusingBus] at hk
       omega
     simp [machineOn, refusingBus, willingBus, steadyBus, h4],
   (init_ignores_write_results 0 zeroLocals (machineOn refusingBus) (machineOn willingBus)
      rfl rfl rfl rfl
      (fun k hk => by
        have h4 : ¬ k < 4 := by
          simp [machineOn, refusingBus] at hk
          omega
        simp [machineOn, refusingBus, willingBus, steadyBus, h4])).1⟩

/-! ## Register operations (C12, C13) -/

/-- C12: each single-bit register operation issues exactly one bit write,
at the driver's address, to the register and bit of the register map, and
returns the result of that write: `set_sleep` writes `PWR_MGMT_1` bit 6 with 1
iff `on`, `reset` writes `PWR_MGMT_1` bit 7 with 1, `fifo_enable` writes
`USER_CTRL` bit 6 with 1 iff `en`, `i2c_mstr_enable` writes `USER_CTRL` bit 5
with 1 iff `en`, `fifo_reset` writes `USER_CTRL` bit 2 with 1,
`i2c_mstr_reset` writes `USER_CTRL` bit 1 with 1, and `enable_int_dataready`
writes `INT_ENABLE` bit 0 with 1 iff `en`. -/
theorem bit_operations_issue_one_write (m : Machine) (b : Bool) :
    ((FC_IMU.set_sleep m b).m.tw.log = m.tw.log ++
        [Call.write_bit m.imu._i2c_address Register.PWR_MGMT_1 6 (if b then 1 else 0)] ∧
      (FC_IMU.set_sleep m b).ret = m.tw.next.ok) ∧
    ((FC_IMU.reset m).m.tw.log = m.tw.log ++
        [Call.write_bit m.imu._i2c_address Register.PWR_MGMT_1 7 1] ∧
      (FC_IMU.reset m).ret = m.tw.next.ok) ∧
    ((FC_IMU.fifo_enable m b).m.tw.log = m.tw.log ++
        [Call.write_bit m.imu._i2c_address Register.USER_CTRL 6 (if b then 1 else 0)] ∧
      (FC_IMU.fifo_enable m b).ret = m.tw.next.ok) ∧
    ((FC_IMU.i2c_mstr_enable m b).m.tw.log = m.tw.log ++
        [Call.write_bit m.imu._i2c_address Register.USER_CTRL 5 (if b then 1 else 0)] ∧
      (FC_IMU.i2c_mstr_enable m b).ret = m.tw.next.ok) ∧
    ((FC_IMU.fifo_reset m).m.tw.log = m.tw.log ++
        [Call.write_bit m.imu._i2c_address Register.USER_CTRL 2 1] ∧
      (FC_IMU.fifo_reset m).ret = m.tw.next.ok) ∧
    ((FC_IMU.i2c_mstr_reset m).m.tw.log = m.tw.log ++
        [Call.write_bit m.imu._i2c_address Register.USER_CTRL 1 1] ∧
      (FC_IMU.i2c_mstr_reset m).ret = m.tw.next.ok) ∧
    ((FC_IMU.enable_int_dataready m b).m.tw.log = m.tw.log ++
        [Call.write_bit m.imu._i2c_address Register.INT_ENABLE 0 (if b then 1 else 0)] ∧
      (FC_IMU.enable_int_dataready m b).ret = m.tw.next.ok) := by
  refine ⟨?_, ⟨rfl, rfl⟩, ?_, ?_, ⟨rfl, rfl⟩, ⟨rfl, rfl⟩, ?_⟩
  · cases b <;> exact ⟨rfl, rfl⟩
  · cases b <;> exact ⟨rfl, rfl⟩
  · cases b <;> exact ⟨rfl, rfl⟩
  · cases b <;> exact ⟨rfl, rfl⟩

/-- C13: for the bytes `(H, L)` that the two-byte read at `FIFO_COUNT_H`
leaves in the buffer, `fifo_get_count` returns the unsigned big-endian value
`256 * H + L`, which lies in `0..65535`; nothing is subtracted when
`H >= 128`.  It issues that one read. -/
theorem fifo_get_count_is_unsigned_big_endian (m : Machine) :
    ((FC_IMU.fifo_get_count m).ret : Int) =
      256 * (byteAt m.tw.next.buf 0 : Int) + (byteAt m.tw.next.buf 1 : Int) ∧
    (FC_IMU.fifo_get_count m).ret ≤ 65535 ∧
    (FC_IMU.fifo_get_count m).m.tw.log =
      m.tw.log ++ [Call.read_bytes m.imu._i2c_address Register.FIFO_COUNT_H 2] := by
  have h0 := byteAt_lt m.tw.next.buf 0
  have h1 := byteAt_lt m.tw.next.buf 1
  have e : (FC_IMU.fifo_get_count m).ret =
      (shlU16 (byteAt m.tw.next.buf 0 % 65536) 8 ||| byteAt m.tw.next.buf 1) % 65536 := rfl
  have e2 : shlU16 (byteAt m.tw.next.buf 0 % 65536) 8 = byteAt m.tw.next.buf 0 * 256 := by
    unfold shlU16
    rw [Nat.shiftLeft_eq]
    omega
  rw [e, e2, or_low_byte _ _ h1]
  refine ⟨?_, ?_, rfl⟩
  · omega
  · omega

/-! ## The timer interrupt (C14) -/

/-- C14: the timer-overflow handler sets `sensor_update_int` to true and
does nothing else: the bus log (so no read or write is issued), the driver
object with its cached sample, baselines and range selectors, and the timer
mask are unchanged; running it twice is the same as running it once. -/
theorem timer_interrupt_only_sets_flag (m : Machine) :
    (FC_IMU.TIMER2_OVF_vect m).sensor_update_int = true ∧
    (FC_IMU.TIMER2_OVF_vect m).tw.log = m.tw.log ∧
    (FC_IMU.TIMER2_OVF_vect m).imu = m.imu ∧
    (FC_IMU.TIMER2_OVF_vect m).TIMSK2 = m.TIMSK2 ∧
    (FC_IMU.TIMER2_OVF_vect m).tw.reply = m.tw.reply ∧
    FC_IMU.TIMER2_OVF_vect (FC_IMU.TIMER2_OVF_vect m) = FC_IMU.TIMER2_OVF_vect m :=
  ⟨rfl, rfl, rfl, rfl, rfl, rfl⟩

/-! ## Calibration: calls and arithmetic (C16, C18) -/

/-- The machine after `i` iterations of the sampling loop: `i` rounds of
calls in the log and nothing else changed. -/
theorem set_baseline_loop_machine (i : Nat) :
    ∀ (l : FC_IMU.BaselineLocals) (m : Machine),
      (FC_IMU.set_baseline_loop i l m).2 =
        { m with tw := { m.tw with
          log := m.tw.log ++ samplingRounds m.imu._i2c_address i } } := by
  induction i with
  | zero =>
    intro l m
    simp [FC_IMU.set_baseline_loop, samplingRounds]
  | succ i ih =>
    intro l m
    have e : FC_IMU.set_baseline_loop (i + 1) l m =
        FC_IMU.set_baseline_loop i (FC_IMU.set_baseline_body l m).1
          (FC_IMU.set_baseline_body l m).2 := rfl
    rw [e, ih, set_baseline_body_machine]
    simp [samplingRounds, samplingRound]

/-- C16: on every bus `set_baseline` returns after exactly ten sampling
iterations, each one `accel_raw` read followed by one `gyro_raw` read
followed by `delay(100)`: the calls it issues are ten such rounds, hence ten
accelerometer reads, ten gyroscope reads and 1000 ms of delay in all. -/
theorem set_baseline_runs_ten_rounds (l : FC_IMU.BaselineLocals) (m : Machine) :
    (FC_IMU.set_baseline l m).tw.log =
      m.tw.log ++ samplingRounds m.imu._i2c_address 10 ∧
    (samplingRounds m.imu._i2c_address 10).length = 30 ∧
    (samplingRounds m.imu._i2c_address 10).count
      (Call.read_bytes m.imu._i2c_address Register.ACCEL_XOUT_H 6) = 10 ∧
    (samplingRounds m.imu._i2c_address 10).count
      (Call.read_bytes m.imu._i2c_address Register.GYRO_XOUT_H 6) = 10 ∧
    (samplingRounds m.imu._i2c_address 10).count (Call.delay 100) = 10 ∧
    delayTotal (samplingRounds m.imu._i2c_address 10) = 1000 := by
  refine ⟨?_, rfl, ?_, ?_, ?_, rfl⟩
  · have e : (FC_IMU.set_baseline l m).tw = (FC_IMU.set_baseline_loop 10 l m).2.tw := rfl
    rw [e, set_baseline_loop_machine]
  · simp [samplingRounds, samplingRound, List.count_cons]
  · simp [samplingRounds, samplingRound, List.count_cons]
  · simp [samplingRounds, samplingRound, List.count_cons]

theorem wrapS16_within (n : Int) : -32768 ≤ wrapS16 n ∧ wrapS16 n ≤ 32767 := by
  unfold wrapS16
  omega

theorem wrapS32_of_fits (n : Int) (lo : -2147483648 ≤ n) (hi : n ≤ 2147483647) :
    wrapS32 n = n := by
  unfold wrapS32
  omega

theorem accel_raw_data_within (m : Machine) (data : Vec3 Int)
    (h : data.within (-32768) 32767) :
    (FC_IMU.accel_raw m data).data.within (-32768) 32767 := by
  by_cases hok : m.tw.next.ok = true
  · simp only [FC_IMU.accel_raw, hok, if_true, Vec3.set, Vec3.within, assemble_u16]
    exact ⟨wrapS16_within _, wrapS16_within _, wrapS16_within _⟩
  · have hf : m.tw.next.ok = false := by simpa using hok
    rw [accel_raw_data_of_fail _ _ hf]
    exact h

theorem gyro_raw_data_within (m : Machine) (data : Vec3 Int)
    (h : data.within (-32768) 32767) :
    (FC_IMU.gyro_raw m data).data.within (-32768) 32767 := by
  by_cases hok : m.tw.next.ok = true
  · simp only [FC_IMU.gyro_raw, hok, if_true, Vec3.set, Vec3.within, assemble_s16]
    exact ⟨wrapS16_within _, wrapS16_within _, wrapS16_within _⟩
  · have hf : m.tw.next.ok = false := by simpa using hok
    rw [gyro_raw_data_of_fail _ _ hf]
    exact h

/-- The sampling loop unrolled at its last iteration. -/
theorem set_baseline_loop_last (k : Nat) :
    ∀ (l : FC_IMU.BaselineLocals) (m : Machine),
      FC_IMU.set_baseline_loop (k + 1) l m =
        FC_IMU.set_baseline_body (FC_IMU.set_baseline_loop k l m).1
          (FC_IMU.set_baseline_loop k l m).2 := by
  induction k with
  | zero =>
    intro l m
    rfl
  | succ k ih =>
    intro l m
    have e : ∀ (j : Nat) (l : FC_IMU.BaselineLocals) (m : Machine),
        FC_IMU.set_baseline_loop (j + 1) l m =
          FC_IMU.set_baseline_loop j (FC_IMU.set_baseline_body l m).1
            (FC_IMU.set_baseline_body l m).2 := fun _ _ _ => rfl
    rw [e (k + 1) l m, ih, ← e k l m]

/-- One iteration keeps the buffers in 16-bit range and, while the sums are
small, adds the buffers to the sums without wrapping. -/
theorem set_baseline_body_adds (l : FC_IMU.BaselineLocals) (m : Machine) (k : Int)
    (hk0 : 0 ≤ k) (hk : k ≤ 10)
    (hta : l.tmp_acc.within (-32768) 32767) (htg : l.tmp_gyro.within (-32768) 32767)
    (hsa : l.acc_tot.within (-32768 * k) (32767 * k))
    (hsg : l.gyro_tot.within (-32768 * k) (32767 * k)) :
    ((FC_IMU.set_baseline_body l m).1.tmp_acc.within (-32768) 32767 ∧
      (FC_IMU.set_baseline_body l m).1.tmp_gyro.within (-32768) 32767) ∧
    ((FC_IMU.set_baseline_body l m).1.acc_tot =
        l.acc_tot.plus (FC_IMU.set_baseline_body l m).1.tmp_acc ∧
      (FC_IMU.set_baseline_body l m).1.gyro_tot =
        l.gyro_tot.plus (FC_IMU.set_baseline_body l m).1.tmp_gyro) ∧
    ((FC_IMU.set_baseline_body l m).1.acc_tot.within (-32768 * (k + 1)) (32767 * (k + 1)) ∧
      (FC_IMU.set_baseline_body l m).1.gyro_tot.within (-32768 * (k + 1)) (32767 * (k + 1))) := by
  have ha := accel_raw_data_within m l.tmp_acc hta
  have hg := gyro_raw_data_within (FC_IMU.accel_raw m l.tmp_acc).m l.tmp_gyro htg
  rw [set_baseline_body_locals]
  simp only [Vec3.within, repeatedSum, Vec3.plus] at *
  have e1 : ∀ x y : Int, -32768 * k ≤ x → x ≤ 32767 * k → -32768 ≤ y → y ≤ 32767 →
      wrapS32 (x + ((1 : Nat) : Int) * y) = x + y := by
    intro x y h1 h2 h3 h4
    rw [wrapS32_of_fits] <;> push_cast <;> omega
  obtain ⟨⟨a1, a2⟩, ⟨a3, a4⟩, ⟨a5, a6⟩⟩ := ha
  obtain ⟨⟨g1, g2⟩, ⟨g3, g4⟩, ⟨g5, g6⟩⟩ := hg
  obtain ⟨⟨s1, s2⟩, ⟨s3, s4⟩, ⟨s5, s6⟩⟩ := hsa
  obtain ⟨⟨t1, t2⟩, ⟨t3, t4⟩, ⟨t5, t6⟩⟩ := hsg
  rw [e1 _ _ s1 s2 a1 a2, e1 _ _ s3 s4 a3 a4, e1 _ _ s5 s6 a5 a6,
    e1 _ _ t1 t2 g1 g2, e1 _ _ t3 t4 g3 g4, e1 _ _ t5 t6 g5 g6]
  refine ⟨⟨⟨⟨a1, a2⟩, ⟨a3, a4⟩, ⟨a5, a6⟩⟩, ⟨⟨g1, g2⟩, ⟨g3, g4⟩, ⟨g5, g6⟩⟩⟩, ⟨rfl, rfl⟩, ?_, ?_⟩
  · refine ⟨⟨?_, ?_⟩, ⟨?_, ?_⟩, ⟨?_, ?_⟩⟩ <;> omega
  · refine ⟨⟨?_, ?_⟩, ⟨?_, ?_⟩, ⟨?_, ?_⟩⟩ <;> omega

theorem tdiv_ten_within (s : Int) (h1 : -327680 ≤ s) (h2 : s ≤ 327670) :
    -32768 ≤ Int.tdiv s 10 ∧ Int.tdiv s 10 ≤ 32767 := by
  by_cases h : 0 ≤ s
  · rw [Int.tdiv_eq_ediv h (by norm_num)]
    omega
  · have e : Int.tdiv s 10 = -(Int.tdiv (-s) 10) := by
      rw [Int.neg_tdiv, neg_neg]
    rw [e, Int.tdiv_eq_ediv (by omega) (by norm_num)]
    omega

/-- The sums after `k` iterations started from zero, for `k` up to ten. -/
theorem set_baseline_loop_bounds (l : FC_IMU.BaselineLocals) (m : Machine)
    (hacc : l.acc_tot = zero3) (hgyro : l.gyro_tot = zero3)
    (hta : l.tmp_acc.within (-32768) 32767) (htg : l.tmp_gyro.within (-32768) 32767)
    (k : Nat) (hk : k ≤ 10) :
    ((FC_IMU.set_baseline_loop k l m).1.tmp_acc.within (-32768) 32767 ∧
      (FC_IMU.set_baseline_loop k l m).1.tmp_gyro.within (-32768) 32767) ∧
    ((FC_IMU.set_baseline_loop k l m).1.acc_tot.within (-32768 * k) (32767 * k) ∧
      (FC_IMU.set_baseline_loop k l m).1.gyro_tot.within (-32768 * k) (32767 * k)) := by
  induction k with
  | zero =>
    refine ⟨⟨hta, htg⟩, ?_, ?_⟩
    · show l.acc_tot.within _ _
      rw [hacc]
      simp [Vec3.within, zero3]
    · show l.gyro_tot.within _ _
      rw [hgyro]
      simp [Vec3.within, zero3]
  | succ k ih =>
    obtain ⟨⟨i1, i2⟩, i3, i4⟩ := ih (by omega)
    rw [set_baseline_loop_last]
    have key := set_baseline_body_adds (FC_IMU.set_baseline_loop k l m).1
      (FC_IMU.set_baseline_loop k l m).2 (k : Int) (by omega) (by omega) i1 i2 i3 i4
    refine ⟨key.1, ?_⟩
    have e : ((k + 1 : Nat) : Int) = (k : Int) + 1 := by push_cast; rfl
    rw [e]
    exact key.2.2

/-- C18: when the sums start at zero and the sample buffers hold 16-bit
values, every one of the ten additions of `set_baseline` is exact (the
`int32_t` sum does not wrap) and leaves each sum within `-327680..327670`; the
truncated quotient by ten lies within `-32768..32767`, so the stored baseline
is that quotient unchanged by the cast to `int16_t`. -/
theorem set_baseline_sums_fit (l : FC_IMU.BaselineLocals) (m : Machine)
    (hacc : l.acc_tot = zero3) (hgyro : l.gyro_tot = zero3)
    (hta : l.tmp_acc.within (-32768) 32767) (htg : l.tmp_gyro.within (-32768) 32767) :
    (∀ k, k < 10 →
      ((FC_IMU.set_baseline_loop (k + 1) l m).1.acc_tot =
          (FC_IMU.set_baseline_loop k l m).1.acc_tot.plus
            (FC_IMU.set_baseline_loop (k + 1) l m).1.tmp_acc ∧
        (FC_IMU.set_baseline_loop (k + 1) l m).1.gyro_tot =
          (FC_IMU.set_baseline_loop k l m).1.gyro_tot.plus
            (FC_IMU.set_baseline_loop (k + 1) l m).1.tmp_gyro) ∧
      ((FC_IMU.set_baseline_loop (k + 1) l m).1.acc_tot.within (-327680) 327670 ∧
        (FC_IMU.set_baseline_loop (k + 1) l m).1.gyro_tot.within (-327680) 327670)) ∧
    ((FC_IMU.set_baseline l m).imu._accel_baseline =
        { a0 := Int.tdiv (FC_IMU.set_baseline_loop 10 l m).1.acc_tot.a0 10,
          a1 := Int.tdiv (FC_IMU.set_baseline_loop 10 l m).1.acc_tot.a1 10,
          a2 := Int.tdiv (FC_IMU.set_baseline_loop 10 l m).1.acc_tot.a2 10 } ∧
      (FC_IMU.set_baseline l m).imu._gyro_baseline =
        { a0 := Int.tdiv (FC_IMU.set_baseline_loop 10 l m).1.gyro_tot.a0 10,
          a1 := Int.tdiv (FC_IMU.set_baseline_loop 10 l m).1.gyro_tot.a1 10,
          a2 := Int.tdiv (FC_IMU.set_baseline_loop 10 l m).1.gyro_tot.a2 10 }) ∧
    ((FC_IMU.set_baseline l m).imu._accel_baseline.within (-32768) 32767 ∧
      (FC_IMU.set_baseline l m).imu._gyro_baseline.within (-32768) 32767) := by
  have hten := set_baseline_loop_bounds l m hacc hgyro hta htg 10 (Nat.le_refl 10)
  obtain ⟨_, sa, sg⟩ := hten
  simp only [Vec3.within] at sa sg
  obtain ⟨⟨a1, a2⟩, ⟨a3, a4⟩, ⟨a5, a6⟩⟩ := sa
  obtain ⟨⟨g1, g2⟩, ⟨g3, g4⟩, ⟨g5, g6⟩⟩ := sg
  have q : ∀ s : Int, -32768 * ((10 : Nat) : Int) ≤ s → s ≤ 32767 * ((10 : Nat) : Int) →
      (-32768 ≤ Int.tdiv s 10 ∧ Int.tdiv s 10 ≤ 32767) ∧ wrapS16 (Int.tdiv s 10) = Int.tdiv s 10 := by
    intro s h1 h2
    have hb := tdiv_ten_within s (by push_cast at h1; omega) (by push_cast at h2; omega)
    exact ⟨hb, wrapS16_of_fits _ hb.1 hb.2⟩
  refine ⟨?_, ?_, ?_⟩
  · intro k hk
    have hb := set_baseline_loop_bounds l m hacc hgyro hta htg k (by omega)
    obtain ⟨⟨i1, i2⟩, i3, i4⟩ := hb
    have key := set_baseline_body_adds (FC_IMU.set_baseline_loop k l m).1
      (FC_IMU.set_baseline_loop k l m).2 (k : Int) (by omega) (by omega) i1 i2 i3 i4
    rw [set_baseline_loop_last]
    refine ⟨key.2.1, ?_, ?_⟩
    · have w := key.2.2.1
      simp only [Vec3.within] at w ⊢
      refine ⟨⟨?_, ?_⟩, ⟨?_, ?_⟩, ⟨?_, ?_⟩⟩ <;> omega
    · have w := key.2.2.2
      simp only [Vec3.within] at w ⊢
      refine ⟨⟨?_, ?_⟩, ⟨?_, ?_⟩, ⟨?_, ?_⟩⟩ <;> omega
  · rw [set_baseline_imu]
    refine ⟨?_, ?_⟩
    · show ({ a0 := _, a1 := _, a2 := _ } : Vec3 Int) = _
      rw [(q _ a1 a2).2, (q _ a3 a4).2, (q _ a5 a6).2]
    · show ({ a0 := _, a1 := _, a2 := _ } : Vec3 Int) = _
      rw [(q _ g1 g2).2, (q _ g3 g4).2, (q _ g5 g6).2]
  · rw [set_baseline_imu]
    simp only [(q _ a1 a2).2, (q _ a3 a4).2, (q _ a5 a6).2, (q _ g1 g2).2, (q _ g3 g4).2,
      (q _ g5 g6).2, Vec3.within]
    exact ⟨⟨(q _ a1 a2).1, (q _ a3 a4).1, (q _ a5 a6).1⟩,
      ⟨(q _ g1 g2).1, (q _ g3 g4).1, (q _ g5 g6).1⟩⟩

theorem set_baseline_sums_fit_witness :
    zeroLocals.acc_tot = zero3 ∧ zeroLocals.gyro_tot = zero3 ∧
    zeroLocals.tmp_acc.within (-32768) 32767 ∧ zeroLocals.tmp_gyro.within (-32768) 32767 ∧
    (FC_IMU.set_baseline_loop 10 zeroLocals swingMachine).1.acc_tot.within (-327680) 327670 ∧
    (FC_IMU.set_baseline zeroLocals swingMachine).imu._accel_baseline.within (-32768) 32767 :=
  ⟨rfl, rfl, by simp [Vec3.within, zeroLocals, zero3], by simp [Vec3.within, zeroLocals, zero3],
   ((set_baseline_sums_fit zeroLocals swingMachine rfl rfl
      (by simp [Vec3.within, zeroLocals, zero3])
      (by simp [Vec3.within, zeroLocals, zero3])).1 9 (by decide)).2.1,
   (set_baseline_sums_fit zeroLocals swingMachine rfl rfl
      (by simp [Vec3.within, zeroLocals, zero3])
      (by simp [Vec3.within, zeroLocals, zero3])).2.2.1⟩

/-! ## Start-up: order of the steps (C17) -/

/-- The machine after `set_baseline`: new baselines, ten rounds of calls in
the log, nothing else changed. -/
theorem set_baseline_machine (l : FC_IMU.BaselineLocals) (m : Machine) :
    FC_IMU.set_baseline l m =
      { m with imu := (FC_IMU.set_baseline l m).imu,
               tw := { m.tw with log := m.tw.log ++ samplingRounds m.imu._i2c_address 10 } } := by
  have e : FC_IMU.set_baseline l m =
      { (FC_IMU.set_baseline_loop 10 l m).2 with imu := (FC_IMU.set_baseline l m).imu } := rfl
  rw [e, set_baseline_loop_machine]

/-- Calibration changes neither the device address nor the cached sample. -/
theorem set_baseline_imu_frame (l : FC_IMU.BaselineLocals) (m : Machine) :
    (FC_IMU.set_baseline l m).imu._i2c_address = m.imu._i2c_address := by
  rw [set_baseline_imu]
  have e : (FC_IMU.set_baseline_loop 10 l m).2.imu = m.imu := by
    rw [set_baseline_loop_machine]
  simp [e]

theorem configured_eq (m : Machine) :
    configured m =
      { m with
        imu := { m.imu with _gyro_fs_sel := 0, _accel_fs_sel := 0 },
        tw := { m.tw with log := m.tw.log ++ configWrites m.imu._i2c_address } } := by
  unfold configured
  rw [config_writes_machine]
  rfl

/-- The bus as `init` hands it to `update_sensors`. -/
theorem calibrated_bus (l : FC_IMU.BaselineLocals) (m : Machine) :
    (FC_IMU.set_baseline l (configured m)).tw =
      { m.tw with log := m.tw.log ++ configWrites m.imu._i2c_address
          ++ samplingRounds m.imu._i2c_address 10 } := by
  rw [set_baseline_machine, configured_eq]

/-- Setting bit `k` of an 8-bit register leaves that bit set. -/
theorem testBit_after_or_shift (a k : Nat) (h : k < 8) :
    Nat.testBit ((a ||| (1 <<< k)) % 256) k = true := by
  have e : (256 : Nat) = 2 ^ 8 := by norm_num
  rw [e, Nat.testBit_mod_two_pow]
  simp [h, Nat.testBit_or, Nat.testBit_shiftLeft]

/-- The machine as `init` hands it to `update_sensors`: calibrated, and with
the write to `TIMSK2` done and entered in the log. -/
theorem calibrated_and_enabled (TOIE2 : Nat) (l : FC_IMU.BaselineLocals) (m : Machine) :
    ((FC_IMU.set_baseline l (configured m)).write_TIMSK2
        (((FC_IMU.set_baseline l (configured m)).TIMSK2 ||| (1 <<< TOIE2)) % 256)).tw =
      { m.tw with log := m.tw.log ++ configWrites m.imu._i2c_address
          ++ samplingRounds m.imu._i2c_address 10
          ++ [Call.write_TIMSK2 ((m.TIMSK2 ||| (1 <<< TOIE2)) % 256)] } := by
  have htimsk : (FC_IMU.set_baseline l (configured m)).TIMSK2 = m.TIMSK2 := by
    rw [set_baseline_machine, configured_eq]
  show (FC_IMU.set_baseline l (configured m)).tw.issue _ = _
  rw [htimsk, calibrated_bus]
  rfl

/-- C17: `init` performs its steps in this order: the clock-source write
with value 1, the gyroscope range write with selector 0, the accelerometer
range write with selector 0, the write clearing the sleep bit, one calibration
(ten sampling rounds), the write to `TIMSK2` that sets the timer-overflow
enable bit, and one `update_sensors`.  The log of `init` lists exactly these
effects in this order, so every read of a sensor data register comes after
the sleep-clearing write and the interrupt is enabled after calibration and
before the closing read; the cached sample is the block of that closing read
less the baseline that calibration stored. -/
theorem init_steps_in_order (TOIE2 : Nat) (l : FC_IMU.BaselineLocals) (m : Machine) :
    (FC_IMU.init TOIE2 l m).tw.log =
      m.tw.log ++ configWrites m.imu._i2c_address ++ samplingRounds m.imu._i2c_address 10
        ++ [Call.write_TIMSK2 ((m.TIMSK2 ||| (1 <<< TOIE2)) % 256)]
        ++ [Call.read_bytes m.imu._i2c_address Register.ACCEL_XOUT_H 14] ∧
    ((FC_IMU.init TOIE2 l m).TIMSK2 = (m.TIMSK2 ||| (1 <<< TOIE2)) % 256 ∧
      (TOIE2 < 8 → Nat.testBit (FC_IMU.init TOIE2 l m).TIMSK2 TOIE2 = true)) ∧
    ((FC_IMU.init TOIE2 l m).imu._accel_baseline =
        (FC_IMU.set_baseline l (configured m)).imu._accel_baseline ∧
      (FC_IMU.init TOIE2 l m).imu._gyro_baseline =
        (FC_IMU.set_baseline l (configured m)).imu._gyro_baseline) ∧
    ((FC_IMU.init TOIE2 l m).imu._accel_data =
        { a0 := wrapS16 (be16 (byteAt (m.tw.reply (m.tw.log.length + 35)).buf 0)
                  (byteAt (m.tw.reply (m.tw.log.length + 35)).buf 1)
                - (FC_IMU.set_baseline l (configured m)).imu._accel_baseline.a0),
          a1 := wrapS16 (be16 (byteAt (m.tw.reply (m.tw.log.length + 35)).buf 2)
                  (byteAt (m.tw.reply (m.tw.log.length + 35)).buf 3)
                - (FC_IMU.set_baseline l (configured m)).imu._accel_baseline.a1),
          a2 := wrapS16 (be16 (byteAt (m.tw.reply (m.tw.log.length + 35)).buf 4)
                  (byteAt (m.tw.reply (m.tw.log.length + 35)).buf 5)
                - (FC_IMU.set_baseline l (configured m)).imu._accel_baseline.a2) } ∧
      (FC_IMU.init TOIE2 l m).imu._gyro_data =
        { a0 := wrapS16 (be16 (byteAt (m.tw.reply (m.tw.log.length + 35)).buf 8)
                  (byteAt (m.tw.reply (m.tw.log.length + 35)).buf 9)
                - (FC_IMU.set_baseline l (configured m)).imu._gyro_baseline.a0),
          a1 := wrapS16 (be16 (byteAt (m.tw.reply (m.tw.log.length + 35)).buf 10)
                  (byteAt (m.tw.reply (m.tw.log.length + 35)).buf 11)
                - (FC_IMU.set_baseline l (configured m)).imu._gyro_baseline.a1),
          a2 := wrapS16 (be16 (byteAt (m.tw.reply (m.tw.log.length + 35)).buf 12)
                  (byteAt (m.tw.reply (m.tw.log.length + 35)).buf 13)
                - (FC_IMU.set_baseline l (configured m)).imu._gyro_baseline.a2) }) := by
  have hinit : FC_IMU.init TOIE2 l m =
      FC_IMU.update_sensors
        ((FC_IMU.set_baseline l (configured m)).write_TIMSK2
          (((FC_IMU.set_baseline l (configured m)).TIMSK2 ||| (1 <<< TOIE2)) % 256)) :=
    rfl
  have hbus := calibrated_and_enabled TOIE2 l m
  have haddr : (FC_IMU.set_baseline l (configured m)).imu._i2c_address = m.imu._i2c_address := by
    rw [set_baseline_imu_frame, configured_eq]
  have htimsk : (FC_IMU.set_baseline l (configured m)).TIMSK2 = m.TIMSK2 := by
    rw [set_baseline_machine, configured_eq]
  have hnext : ((FC_IMU.set_baseline l (configured m)).write_TIMSK2
      (((FC_IMU.set_baseline l (configured m)).TIMSK2 ||| (1 <<< TOIE2)) % 256)).tw.next =
        m.tw.reply (m.tw.log.length + 35) := by
    rw [hbus]
    simp [TwoWire.next, configWrites, samplingRounds, samplingRound]
  have hval : (FC_IMU.init TOIE2 l m).TIMSK2 = (m.TIMSK2 ||| (1 <<< TOIE2)) % 256 := by
    rw [hinit]
    show ((FC_IMU.set_baseline l (configured m)).TIMSK2 ||| (1 <<< TOIE2)) % 256 = _
    rw [htimsk]
  refine ⟨?_, ⟨hval, ?_⟩, ?_, ?_⟩
  · rw [hinit]
    have e : ∀ x : Machine, (FC_IMU.update_sensors x).tw.log =
        x.tw.log ++ [Call.read_bytes x.imu._i2c_address Register.ACCEL_XOUT_H 14] :=
      fun _ => rfl
    rw [e, hbus]
    show _ ++ [Call.read_bytes (FC_IMU.set_baseline l (configured m)).imu._i2c_address
        Register.ACCEL_XOUT_H 14] = _
    rw [haddr]
  · intro hbit
    rw [hval]
    exact testBit_after_or_shift _ _ hbit
  · rw [hinit, update_sensors_imu]
    exact ⟨rfl, rfl⟩
  · rw [hinit, update_sensors_imu, hnext]
    exact ⟨rfl, rfl⟩

theorem init_steps_in_order_witness :
    (0 < 8) ∧ Nat.testBit (FC_IMU.init 0 zeroLocals (machineOn willingBus)).TIMSK2 0 = true :=
  ⟨by decide, (init_steps_in_order 0 zeroLocals (machineOn willingBus)).2.1.2 (by decide)⟩

/-! ## Tilt angles (C11) -/

/-- C11 (the code at the failing input): the accelerometer of a level
machine reads `(0, 0, 16384)` and the cached sample after `update_sensors` is
`(0, 0, 16384)`, but `accel_angle` issues no read and looks at neither; with
`(16384, 16384, 0)` in the variable `tmp_data` it writes
`atan2(16384/16384, 0/16384) * (180 / PI)`, that is 90 degrees, to `data[0]`
and to `data[1]`. -/
theorem accel_angle_reads_no_sample :
    (FC_IMU.accel_raw levelMachine zero3).data = { a0 := 0, a1 := 0, a2 := 16384 } ∧
    (FC_IMU.update_sensors levelMachine).imu._accel_data = { a0 := 0, a1 := 0, a2 := 16384 } ∧
    (FC_IMU.accel_angle termOps FloatTerm.atan2 FloatTerm.deg_per_rad (FloatTerm.ofInt 16384)
        unrelatedBuffer clearedAngles (FC_IMU.update_sensors levelMachine)
        clearedAngles).m.tw.log = (FC_IMU.update_sensors levelMachine).tw.log ∧
    (FC_IMU.accel_angle termOps FloatTerm.atan2 FloatTerm.deg_per_rad (FloatTerm.ofInt 16384)
        unrelatedBuffer clearedAngles (FC_IMU.update_sensors levelMachine)
        clearedAngles).data.a0 =
      FloatTerm.mul
        (FloatTerm.atan2 (FloatTerm.div (FloatTerm.ofInt 16384) (FloatTerm.ofInt 16384))
          (FloatTerm.div (FloatTerm.ofInt 0) (FloatTerm.ofInt 16384)))
        FloatTerm.deg_per_rad ∧
    (FC_IMU.accel_angle termOps FloatTerm.atan2 FloatTerm.deg_per_rad (FloatTerm.ofInt 16384)
        unrelatedBuffer clearedAngles (FC_IMU.update_sensors levelMachine)
        clearedAngles).data.a1 =
      FloatTerm.mul
        (FloatTerm.atan2 (FloatTerm.div (FloatTerm.ofInt 16384) (FloatTerm.ofInt 16384))
          (FloatTerm.div (FloatTerm.ofInt 0) (FloatTerm.ofInt 16384)))
        FloatTerm.deg_per_rad := by
  refine ⟨by decide, by decide, rfl, ?_, ?_⟩
  · rw [accel_angle_data]
    rfl
  · rw [accel_angle_data]
    rfl

/-! ## The PID controllers (C15) -/

theorem clampSymmetric_within (limit x : ℚ) (h : 0 ≤ limit) :
    -limit ≤ clampSymmetric limit x ∧ clampSymmetric limit x ≤ limit := by
  unfold clampSymmetric
  split
  · constructor <;> linarith
  · split
    · constructor <;> linarith
    · constructor <;> linarith

theorem PID.update_integral_limit (p : PID) (sp meas : ℚ) :
    (p.update sp meas).integral_limit = p.integral_limit := rfl

theorem PID.run_integral_limit (inputs : List (ℚ × ℚ)) :
    ∀ p : PID, (p.run inputs).integral_limit = p.integral_limit := by
  induction inputs with
  | nil =>
    intro p
    rfl
  | cons x rest ih =>
    intro p
    have e : p.run (x :: rest) = (p.update x.1 x.2).run rest := rfl
    rw [e, ih, PID.update_integral_limit]

theorem pids_integral_limit (i : Fin 6) :
    (FlightController._pids i).integral_limit = FlightController.integral_limit_of i ∧
    FlightController.integral_limit_of i = 1 / 2 := by
  fin_cases i <;> exact ⟨rfl, rfl⟩

/-- C15: for each of the six controllers of the flight controller and every
sequence of setpoint and measurement inputs, sustained error included, the
integral accumulator after every update lies within `-limit..limit`, `limit`
being the integral limit configured for that controller (0.5 for each). -/
theorem pid_integral_within_limit (i : Fin 6) (inputs : List (ℚ × ℚ)) (sp meas : ℚ) :
    -FlightController.integral_limit_of i ≤
        (((FlightController._pids i).run inputs).update sp meas).integral ∧
    (((FlightController._pids i).run inputs).update sp meas).integral ≤
        FlightController.integral_limit_of i ∧
    (((FlightController._pids i).run inputs).update sp meas).integral_limit =
        FlightController.integral_limit_of i ∧
    FlightController.integral_limit_of i = 1 / 2 := by
  have hl := pids_integral_limit i
  have hrun : ((FlightController._pids i).run inputs).integral_limit =
      FlightController.integral_limit_of i := by
    rw [PID.run_integral_limit, hl.1]
  have hpos : (0 : ℚ) ≤ FlightController.integral_limit_of i := by
    rw [hl.2]
    norm_num
  have e : (((FlightController._pids i).run inputs).update sp meas).integral =
      clampSymmetric ((FlightController._pids i).run inputs).integral_limit
        (((FlightController._pids i).run inputs).integral
          + (sp - meas) * ((FlightController._pids i).run inputs).ki) := rfl
  rw [e, hrun]
  have hc := clampSymmetric_within (FlightController.integral_limit_of i)
    (((FlightController._pids i).run inputs).integral
      + (sp - meas) * ((FlightController._pids i).run inputs).ki) hpos
  refine ⟨hc.1, hc.2, ?_, hl.2⟩
  rw [PID.update_integral_limit, hrun]
